import Mathlib

/-!
Verification development for the ctok bytecode compiler and virtual machine
(a C implementation of the Tok scripting language).  The C sources are
shallowly embedded: the scanner, the single-pass Pratt compiler, and the VM
dispatch loop become total Lean functions (recursion made total with explicit
fuel where the C uses unbounded loops); the tagged-union and NaN-boxed value
representations of value.h/value.c are embedded at the bit level; the
mark-sweep collector of memory.c is embedded over an explicit object graph.
Machine doubles are modelled by rationals in the interpreter (every numeric
literal exercised here is a small integer, where the two agree) and by raw
64-bit IEEE-754 patterns in the value-representation model, where the
NaN behaviour matters.
-/

set_option maxRecDepth 100000

namespace Ctok

/-! ## Scanner (scanner.h / scanner.c) -/

/-- The token kinds of scanner.h's TokenType enum, in declaration order. -/
inductive TokenType where
  | TOKEN_LEFT_PAREN | TOKEN_RIGHT_PAREN
  | TOKEN_LEFT_BRACE | TOKEN_RIGHT_BRACE
  | TOKEN_COMMA | TOKEN_DOT | TOKEN_MINUS | TOKEN_PLUS
  | TOKEN_SEMICOLON | TOKEN_SLASH | TOKEN_STAR
  | TOKEN_BANG | TOKEN_BANG_EQUAL
  | TOKEN_EQUAL | TOKEN_EQUAL_EQUAL
  | TOKEN_GREATER | TOKEN_GREATER_EQUAL
  | TOKEN_LESS | TOKEN_LESS_EQUAL
  | TOKEN_IDENTIFIER | TOKEN_STRING | TOKEN_NUMBER
  | TOKEN_AND | TOKEN_CLASS | TOKEN_ELSE | TOKEN_FALSE
  | TOKEN_FOR | TOKEN_FUN | TOKEN_IF | TOKEN_NIL | TOKEN_OR
  | TOKEN_PRINT | TOKEN_RETURN | TOKEN_SUPER | TOKEN_THIS
  | TOKEN_TRUE | TOKEN_VAR | TOKEN_WHILE
  | TOKEN_ERROR | TOKEN_EOF
  deriving DecidableEq, Repr

/-- A scanner token.  The C Token stores a pointer/length window into the
source buffer; the model stores the lexeme characters themselves (for a
TOKEN_ERROR the lexeme is the error message, as in errorToken). -/
structure Token where
  type : TokenType
  lexeme : List Char
  line : Nat
  deriving DecidableEq, Repr

/-- scanner.c isAlpha. -/
def isAlpha (c : Char) : Bool :=
  (97 ≤ c.toNat && c.toNat ≤ 122) || (65 ≤ c.toNat && c.toNat ≤ 90) || c = '_'

/-- scanner.c isDigit. -/
def isDigit (c : Char) : Bool :=
  48 ≤ c.toNat && c.toNat ≤ 57

/-- The double-quote character. -/
def quoteChar : Char := Char.ofNat 34

/-- The loop of scanner.c skipWhitespace, with fuel (each iteration consumes
at least one character, so fuel `src.length` always completes the loop). -/
def skipWhitespaceF : Nat → List Char → Nat → List Char × Nat
  | 0, src, line => (src, line)
  | fuel + 1, src, line =>
    match src with
    | [] => ([], line)
    | c :: rest =>
      if c = ' ' ∨ c = '\r' ∨ c = '\t' then skipWhitespaceF fuel rest line
      else if c = '\n' then skipWhitespaceF fuel rest (line + 1)
      else if c = '/' then
        match rest with
        | '/' :: rest2 =>
          -- a comment goes until the end of the line (the newline itself is
          -- left for the next loop iteration, which counts it)
          skipWhitespaceF fuel (rest2.dropWhile (fun ch => ch ≠ '\n')) line
        | _ => (c :: rest, line)
      else (c :: rest, line)

/-- scanner.c skipWhitespace: consume spaces, tabs, carriage returns,
newlines (counting lines) and line comments.  The remaining source and the
updated line counter are returned. -/
def skipWhitespace (src : List Char) (line : Nat) : List Char × Nat :=
  skipWhitespaceF src.length src line

/-- scanner.c checkKeyword: the lexeme matches the keyword when its length is
start+length and the bytes from position start equal `rest`. -/
def checkKeyword (lex : List Char) (start length : Nat) (rest : List Char)
    (type : TokenType) : TokenType :=
  if lex.length = start + length ∧ lex.drop start = rest then type
  else .TOKEN_IDENTIFIER

/-- scanner.c identifierType: the keyword trie. -/
def identifierType (lex : List Char) : TokenType :=
  match lex with
  | 'a' :: _ => checkKeyword lex 1 2 ['n', 'd'] .TOKEN_AND
  | 'c' :: _ => checkKeyword lex 1 4 ['l', 'a', 's', 's'] .TOKEN_CLASS
  | 'e' :: _ => checkKeyword lex 1 3 ['l', 's', 'e'] .TOKEN_ELSE
  | 'f' :: 'a' :: _ => checkKeyword lex 2 3 ['l', 's', 'e'] .TOKEN_FALSE
  | 'f' :: 'o' :: _ => checkKeyword lex 2 1 ['r'] .TOKEN_FOR
  | 'f' :: 'u' :: _ => checkKeyword lex 2 1 ['n'] .TOKEN_FUN
  | 'i' :: _ => checkKeyword lex 1 1 ['f'] .TOKEN_IF
  | 'n' :: _ => checkKeyword lex 1 2 ['i', 'l'] .TOKEN_NIL
  | 'o' :: _ => checkKeyword lex 1 1 ['r'] .TOKEN_OR
  | 'p' :: _ => checkKeyword lex 1 4 ['r', 'i', 'n', 't'] .TOKEN_PRINT
  | 'r' :: _ => checkKeyword lex 1 5 ['e', 't', 'u', 'r', 'n'] .TOKEN_RETURN
  | 's' :: _ => checkKeyword lex 1 4 ['u', 'p', 'e', 'r'] .TOKEN_SUPER
  | 't' :: 'h' :: _ => checkKeyword lex 2 2 ['i', 's'] .TOKEN_THIS
  | 't' :: 'r' :: _ => checkKeyword lex 2 2 ['u', 'e'] .TOKEN_TRUE
  | 'v' :: _ => checkKeyword lex 1 2 ['a', 'r'] .TOKEN_VAR
  | 'w' :: _ => checkKeyword lex 1 4 ['h', 'i', 'l', 'e'] .TOKEN_WHILE
  | _ => .TOKEN_IDENTIFIER

/-- scanner.c string(): scan a string body up to the closing quote,
counting newlines.  Returns (some body-with-closing-quote-consumed) or none
for an unterminated string, along with the rest and the updated line. -/
def scanStringBody : List Char → Nat → Option (List Char × List Char) × Nat
  | [], line => (none, line)
  | c :: rest, line =>
    if c = quoteChar then (some ([], rest), line)
    else
      match scanStringBody rest (if c = '\n' then line + 1 else line) with
      | (none, l) => (none, l)
      | (some (body, r), l) => (some (c :: body, r), l)

/-- scanner.c scanToken: skip whitespace, then produce the next token
together with the remaining source and line counter. -/
def scanToken (src : List Char) (line : Nat) : Token × List Char × Nat :=
  let (s, line) := skipWhitespace src line
  match s with
  | [] => (⟨.TOKEN_EOF, [], line⟩, [], line)
  | c :: rest =>
    if isAlpha c then
      let body := rest.takeWhile (fun ch => isAlpha ch || isDigit ch)
      let rest' := rest.dropWhile (fun ch => isAlpha ch || isDigit ch)
      let lex := c :: body
      (⟨identifierType lex, lex, line⟩, rest', line)
    else if isDigit c then
      let ds := rest.takeWhile isDigit
      let r1 := rest.dropWhile isDigit
      match r1 with
      | d1 :: d2 :: r2 =>
        if d1 = '.' ∧ isDigit d2 then
          let fs := r2.takeWhile isDigit
          let r3 := r2.dropWhile isDigit
          (⟨.TOKEN_NUMBER, c :: ds ++ d1 :: d2 :: fs, line⟩, r3, line)
        else (⟨.TOKEN_NUMBER, c :: ds, line⟩, r1, line)
      | _ => (⟨.TOKEN_NUMBER, c :: ds, line⟩, r1, line)
    else if c = quoteChar then
      match scanStringBody rest line with
      | (none, l) => (⟨.TOKEN_ERROR, "Unterminated String.".data, l⟩, [], l)
      | (some (body, r), l) => (⟨.TOKEN_STRING, c :: body ++ [quoteChar], l⟩, r, l)
    else if c = '(' then (⟨.TOKEN_LEFT_PAREN, [c], line⟩, rest, line)
    else if c = ')' then (⟨.TOKEN_RIGHT_PAREN, [c], line⟩, rest, line)
    else if c = Char.ofNat 123 then (⟨.TOKEN_LEFT_BRACE, [c], line⟩, rest, line)
    else if c = Char.ofNat 125 then (⟨.TOKEN_RIGHT_BRACE, [c], line⟩, rest, line)
    else if c = ';' then (⟨.TOKEN_SEMICOLON, [c], line⟩, rest, line)
    else if c = ',' then (⟨.TOKEN_COMMA, [c], line⟩, rest, line)
    else if c = '.' then (⟨.TOKEN_DOT, [c], line⟩, rest, line)
    else if c = '-' then (⟨.TOKEN_MINUS, [c], line⟩, rest, line)
    else if c = '+' then (⟨.TOKEN_PLUS, [c], line⟩, rest, line)
    else if c = '/' then (⟨.TOKEN_SLASH, [c], line⟩, rest, line)
    else if c = '*' then (⟨.TOKEN_STAR, [c], line⟩, rest, line)
    else if c = '!' then
      match rest with
      | '=' :: r => (⟨.TOKEN_BANG_EQUAL, [c, '='], line⟩, r, line)
      | _ => (⟨.TOKEN_BANG, [c], line⟩, rest, line)
    else if c = '=' then
      match rest with
      | '=' :: r => (⟨.TOKEN_EQUAL_EQUAL, [c, '='], line⟩, r, line)
      | _ => (⟨.TOKEN_EQUAL, [c], line⟩, rest, line)
    else if c = '<' then
      match rest with
      | '=' :: r => (⟨.TOKEN_LESS_EQUAL, [c, '='], line⟩, r, line)
      | _ => (⟨.TOKEN_LESS, [c], line⟩, rest, line)
    else if c = '>' then
      match rest with
      | '=' :: r => (⟨.TOKEN_GREATER_EQUAL, [c, '='], line⟩, r, line)
      | _ => (⟨.TOKEN_GREATER, [c], line⟩, rest, line)
    else (⟨.TOKEN_ERROR, "Unexpected character.".data, line⟩, rest, line)

/-- Run scanToken repeatedly up to and including the TOKEN_EOF token.  Every
token other than EOF consumes at least one character, so fuel
`src.length + 1` always reaches EOF. -/
def scanTokens : Nat → List Char → Nat → List Token
  | 0, _, _ => []
  | fuel + 1, src, line =>
    let (tok, rest, line') := scanToken src line
    if tok.type = .TOKEN_EOF then [tok]
    else tok :: scanTokens fuel rest line'

/-- The compiler pulls tokens lazily from the scanner; since the scanner is
pure, precomputing the whole stream is equivalent. -/
def tokenize (source : List Char) : List Token :=
  scanTokens (source.length + 1) source 1

/-! ## Opcodes (chunk.h)

The first 14 byte values follow chunk.h's OpCode enum in declaration order.
The remaining opcodes are used throughout compiler.c and vm.c, but their enum
declaration is not among the provided sources; they are assigned distinct
byte values 14..36 here.  Bytecode is produced and consumed only inside this
model, so the particular numbers are unobservable (jump offsets count bytes,
not opcode values). -/

def OP_RETURN : Nat := 0
def OP_SUBTRACT : Nat := 1
def OP_MULTIPLY : Nat := 2
def OP_DIVIDE : Nat := 3
def OP_NOT : Nat := 4
def OP_NEGATE : Nat := 5
def OP_CONSTANT : Nat := 6
def OP_NIL : Nat := 7
def OP_TRUE : Nat := 8
def OP_FALSE : Nat := 9
def OP_EQUAL : Nat := 10
def OP_GREATER : Nat := 11
def OP_LESS : Nat := 12
def OP_ADD : Nat := 13
def OP_POP : Nat := 14
def OP_GET_LOCAL : Nat := 15
def OP_SET_LOCAL : Nat := 16
def OP_GET_GLOBAL : Nat := 17
def OP_DEFINE_GLOBAL : Nat := 18
def OP_SET_GLOBAL : Nat := 19
def OP_GET_UPVALUE : Nat := 20
def OP_SET_UPVALUE : Nat := 21
def OP_GET_PROPERTY : Nat := 22
def OP_SET_PROPERTY : Nat := 23
def OP_GET_SUPER : Nat := 24
def OP_PRINT : Nat := 25
def OP_JUMP : Nat := 26
def OP_JUMP_IF_FALSE : Nat := 27
def OP_LOOP : Nat := 28
def OP_CALL : Nat := 29
def OP_INVOKE : Nat := 30
def OP_SUPER_INVOKE : Nat := 31
def OP_CLOSURE : Nat := 32
def OP_CLOSE_UPVALUE : Nat := 33
def OP_CLASS : Nat := 34
def OP_INHERIT : Nat := 35
def OP_METHOD : Nat := 36

/-! ## Compile-time values, chunks and compiler state (compiler.c, chunk.c) -/

/-- A compile-time constant-table Value: the compiler only ever creates
number constants, (interned) string constants, and function objects.
A function carries arity, upvalue count, its chunk (code bytes, parallel
line array, constant table) and an optional name — the fields of
ObjFunction.  Machine doubles are modelled by rationals. -/
inductive CValue where
  | num (q : ℚ)
  | str (s : List Char)
  | func (arity upvalueCount : Nat) (code lines : List Nat)
      (constants : List CValue) (name : Option (List Char))

/-- chunk.h Chunk: code bytes, parallel source-line array, constant table.
`count` is the code list's length; capacity is a C allocation detail. -/
structure Chunk where
  code : List Nat
  lines : List Nat
  constants : List CValue

/-- The ObjFunction a Compiler is filling in. -/
structure ObjFunctionC where
  arity : Nat
  upvalueCount : Nat
  chunk : Chunk
  name : Option (List Char)

/-- Convert a finished ObjFunction to a constant-table value. -/
def funcCValue (f : ObjFunctionC) : CValue :=
  .func f.arity f.upvalueCount f.chunk.code f.chunk.lines f.chunk.constants f.name

/-- compiler.c Parser. -/
structure Parser where
  current : Token
  previous : Token
  hadError : Bool
  panicMode : Bool

/-- compiler.c Local: `depth` is -1 while declared but not yet defined. -/
structure Local where
  name : Token
  depth : Int
  isCaptured : Bool

/-- compiler.c Upvalue (the compiler-side record). -/
structure UpvalueC where
  index : Nat
  isLocal : Bool
  deriving DecidableEq

/-- compiler.c FunctionType. -/
inductive FunctionType where
  | TYPE_FUNCTION | TYPE_SCRIPT
  deriving DecidableEq

/-- compiler.c Compiler: the C struct's fixed 256-entry locals/upvalues
arrays with their counts become lists whose length is the count (addLocal
and addUpvalue enforce the 256 bound before growing them).  The `enclosing`
pointer becomes the tail of the compiler-chain list in the global state. -/
structure CompilerF where
  function : ObjFunctionC
  type : FunctionType
  locals : List Local
  upvalues : List UpvalueC
  scopeDepth : Nat

/-- The compiler's global mutable state: the parser, the chain of Compiler
records (head = `current`, tail = the enclosing chain), the remaining token
stream, and the diagnostics written to stderr so far (each errorAt records
its message string; the `[line N] Error at ...` prefix is not modelled). -/
structure GState where
  parser : Parser
  compilers : List CompilerF
  tokens : List Token
  messages : List String

def eofToken : Token := ⟨.TOKEN_EOF, [], 0⟩

def emptyChunk : Chunk := ⟨[], [], []⟩

/-- object.c newFunction: a blank function object. -/
def newFunction : ObjFunctionC := ⟨0, 0, emptyChunk, none⟩

def dummyCompiler : CompilerF := ⟨newFunction, .TYPE_SCRIPT, [], [], 0⟩

/-- The Compiler* `current` global: the head of the chain.  (The default is
never reached: every parsing function runs with a compiler pushed.) -/
def GState.cur (st : GState) : CompilerF := st.compilers.headD dummyCompiler

def GState.setCur (st : GState) (c : CompilerF) : GState :=
  { st with compilers := c :: st.compilers.tail }

/-- compiler.c errorAt: in panic mode further diagnostics are suppressed;
otherwise enter panic mode, record the message, set hadError. -/
def errorAt (st : GState) (message : String) : GState :=
  if st.parser.panicMode then st
  else { st with
          parser := { st.parser with panicMode := true, hadError := true },
          messages := st.messages ++ [message] }

/-- compiler.c error: report at the previous token (the position is not
modelled, only the message). -/
def error (st : GState) (message : String) : GState := errorAt st message

/-- compiler.c errorAtCurrent. -/
def errorAtCurrent (st : GState) (message : String) : GState := errorAt st message

/-- The inner loop of compiler.c advance: pull tokens, reporting and skipping
TOKEN_ERROR tokens (their lexeme is the message).  When the stream is
exhausted the scanner keeps returning EOF. -/
def advanceLoop : List Token → Parser → List String → Parser × List Token × List String
  | [], p, msgs => ({ p with current := eofToken }, [], msgs)
  | t :: rest, p, msgs =>
    if t.type = .TOKEN_ERROR then
      if p.panicMode then advanceLoop rest p msgs
      else advanceLoop rest { p with panicMode := true, hadError := true }
        (msgs ++ [String.mk t.lexeme])
    else ({ p with current := t }, rest, msgs)

/-- compiler.c advance. -/
def advance (st : GState) : GState :=
  let p := { st.parser with previous := st.parser.current }
  let (p', toks, msgs) := advanceLoop st.tokens p st.messages
  { st with parser := p', tokens := toks, messages := msgs }

/-- compiler.c consume. -/
def consume (st : GState) (type : TokenType) (message : String) : GState :=
  if st.parser.current.type = type then advance st else errorAtCurrent st message

/-- compiler.c check. -/
def check (st : GState) (type : TokenType) : Bool :=
  st.parser.current.type = type

/-- compiler.c match (match is a Lean keyword, hence the prime). -/
def match' (st : GState) (type : TokenType) : Bool × GState :=
  if check st type then (true, advance st) else (false, st)

def currentChunk (st : GState) : Chunk := st.cur.function.chunk

def GState.modChunk (st : GState) (f : Chunk → Chunk) : GState :=
  let c := st.cur
  st.setCur { c with function := { c.function with chunk := f c.function.chunk } }

/-- chunk.c writeChunk. -/
def writeChunk (chunk : Chunk) (byte : Nat) (line : Nat) : Chunk :=
  { chunk with code := chunk.code ++ [byte], lines := chunk.lines ++ [line] }

/-- chunk.c addConstant: append and return the new value's index. -/
def addConstant (chunk : Chunk) (value : CValue) : Chunk × Nat :=
  ({ chunk with constants := chunk.constants ++ [value] }, chunk.constants.length)

/-- compiler.c emitByte. -/
def emitByte (st : GState) (byte : Nat) : GState :=
  st.modChunk (fun ch => writeChunk ch byte st.parser.previous.line)

/-- compiler.c emitBytes. -/
def emitBytes (st : GState) (byte1 byte2 : Nat) : GState :=
  emitByte (emitByte st byte1) byte2

/-- compiler.c emitLoop. -/
def emitLoop (st : GState) (loopStart : Nat) : GState :=
  let st := emitByte st OP_LOOP
  let offset := (currentChunk st).code.length - loopStart + 2
  let st :=
    if offset > 65535 then
      error st "Loop body too large. I know this sucks, please bear with me."
    else st
  emitByte (emitByte st ((offset >>> 8) &&& 255)) (offset &&& 255)

/-- compiler.c emitJump: emit the instruction with a 0xff 0xff placeholder
operand; return the operand's offset. -/
def emitJump (st : GState) (instruction : Nat) : GState × Nat :=
  let st := emitByte st instruction
  let st := emitByte st 255
  let st := emitByte st 255
  (st, (currentChunk st).code.length - 2)

/-- compiler.c emitReturn: implicit `return nil`. -/
def emitReturn (st : GState) : GState :=
  emitByte (emitByte st OP_NIL) OP_RETURN

/-- compiler.c makeConstant. -/
def makeConstant (st : GState) (value : CValue) : GState × Nat :=
  let (ch', constant) := addConstant (currentChunk st) value
  let st := st.modChunk (fun _ => ch')
  if constant > 255 then (error st "Too many constants in one chunk.", 0)
  else (st, constant)

/-- compiler.c emitConstant. -/
def emitConstant (st : GState) (value : CValue) : GState :=
  let (st, idx) := makeConstant st value
  emitBytes st OP_CONSTANT idx

/-- compiler.c patchJump. -/
def patchJump (st : GState) (offset : Nat) : GState :=
  let jump := (currentChunk st).code.length - offset - 2
  let st := if jump > 65535 then error st "Too much code to jump over." else st
  st.modChunk (fun ch =>
    { ch with code := (ch.code.set offset ((jump >>> 8) &&& 255)).set (offset + 1) (jump &&& 255) })

/-- compiler.c initCompiler: push a fresh Compiler; for non-script functions
the name is the just-consumed identifier; slot 0 of the locals array is
claimed for the VM with an empty name. -/
def initCompiler (st : GState) (type : FunctionType) : GState :=
  let name := if type ≠ .TYPE_SCRIPT then some st.parser.previous.lexeme else none
  let slot0 : Local := ⟨⟨.TOKEN_IDENTIFIER, [], 0⟩, 0, false⟩
  let comp : CompilerF := ⟨{ newFunction with name := name }, type, [slot0], [], 0⟩
  { st with compilers := comp :: st.compilers }

/-- compiler.c endCompiler: emit the implicit return, pop the compiler and
hand back the whole popped record (the C function() reads both the finished
ObjFunction and the local Compiler's upvalues array afterwards). -/
def endCompiler (st : GState) : GState × CompilerF :=
  let st := emitReturn st
  let comp := st.cur
  ({ st with compilers := st.compilers.tail }, comp)

/-- compiler.c beginScope. -/
def beginScope (st : GState) : GState :=
  let c := st.cur
  st.setCur { c with scopeDepth := c.scopeDepth + 1 }

/-- The pop-locals loop of compiler.c endScope. -/
def endScopePop : Nat → GState → GState
  | 0, st => st
  | fuel + 1, st =>
    let c := st.cur
    match c.locals.getLast? with
    | some l =>
      if l.depth > (c.scopeDepth : Int) then
        let st := if l.isCaptured then emitByte st OP_CLOSE_UPVALUE else emitByte st OP_POP
        let c' := st.cur
        let st := st.setCur { c' with locals := c'.locals.dropLast }
        endScopePop fuel st
      else st
    | none => st

/-- compiler.c endScope. -/
def endScope (st : GState) : GState :=
  let c := st.cur
  let st := st.setCur { c with scopeDepth := c.scopeDepth - 1 }
  endScopePop st.cur.locals.length st

/-- compiler.c identifierConstant: the identifier's lexeme, interned as a
string in the constant table. -/
def identifierConstant (st : GState) (name : Token) : GState × Nat :=
  makeConstant st (.str name.lexeme)

/-- compiler.c identifiersEqual: length plus memcmp, i.e. lexeme equality. -/
def identifiersEqual (a b : Token) : Bool :=
  a.lexeme == b.lexeme

/-- Replace the element at an index (used for patching a list in place). -/
def listModify {α : Type} : List α → Nat → (α → α) → List α
  | [], _, _ => []
  | a :: rest, 0, f => f a :: rest
  | a :: rest, i + 1, f => a :: listModify rest i f

/-- The backwards walk of compiler.c resolveLocal over (index, local) pairs
listed from the top of the locals stack down. -/
def resolveLocalAux : List (Nat × Local) → Token → GState → GState × Option Nat
  | [], _, st => (st, none)
  | (i, l) :: rest, name, st =>
    if identifiersEqual name l.name then
      let st :=
        if l.depth = -1 then error st "Can't read local variable in its own initializer."
        else st
      (st, some i)
    else resolveLocalAux rest name st

/-- compiler.c resolveLocal on a given Compiler record. -/
def resolveLocal (st : GState) (compiler : CompilerF) (name : Token) :
    GState × Option Nat :=
  resolveLocalAux compiler.locals.enum.reverse name st

/-- compiler.c addUpvalue on a given Compiler record: reuse an existing
{index,isLocal} slot, else append (erroring at 256). -/
def addUpvalue (st : GState) (compiler : CompilerF) (index : Nat) (isLocal : Bool) :
    GState × CompilerF × Nat :=
  let upvalueCount := compiler.function.upvalueCount
  match compiler.upvalues.findIdx? (fun u => u.index == index && u.isLocal == isLocal) with
  | some i => (st, compiler, i)
  | none =>
    if upvalueCount = 256 then
      (error st "Too many closure variables in function.", compiler, 0)
    else
      (st,
       { compiler with
          upvalues := compiler.upvalues ++ [⟨index, isLocal⟩],
          function := { compiler.function with upvalueCount := upvalueCount + 1 } },
       upvalueCount)

/-- compiler.c resolveUpvalue, acting on the compiler chain (head = the
compiler resolving the name, tail = its enclosing chain).  Returns the
updated chain and the upvalue index for the head compiler. -/
def resolveUpvalueGo : GState → List CompilerF → Token → GState × List CompilerF × Option Nat
  | st, [], _ => (st, [], none)
  | st, c :: rest, name =>
    match rest with
    | [] => (st, c :: rest, none)
    | encl :: rest2 =>
      let (st, localIdx) := resolveLocal st encl name
      match localIdx with
      | some localIx =>
        let encl := { encl with
          locals := listModify encl.locals localIx (fun l => { l with isCaptured := true }) }
        let (st, c', i) := addUpvalue st c localIx true
        (st, c' :: encl :: rest2, some i)
      | none =>
        let (st, chain', upvalue) := resolveUpvalueGo st (encl :: rest2) name
        match upvalue with
        | some uv =>
          let (st, c', i) := addUpvalue st c uv false
          (st, c' :: chain', some i)
        | none => (st, c :: chain', none)

/-- compiler.c resolveUpvalue from the current compiler. -/
def resolveUpvalue (st : GState) (name : Token) : GState × Option Nat :=
  let (st, chain, res) := resolveUpvalueGo st st.compilers name
  ({ st with compilers := chain }, res)

/-- compiler.c addLocal. -/
def addLocal (st : GState) (name : Token) : GState :=
  if st.cur.locals.length = 256 then
    error st "Too many local variables in function (CTok supports upto 256 variables in a block)."
  else
    let c := st.cur
    st.setCur { c with locals := c.locals ++ [⟨name, -1, false⟩] }

/-- The duplicate-name walk of compiler.c declareVariable: walk the locals
from the top; stop at a defined local of an outer scope; report every
same-name local seen before that. -/
def declareVariableLoop : List Local → Token → Int → GState → GState
  | [], _, _, st => st
  | l :: rest, name, sd, st =>
    if l.depth ≠ -1 ∧ l.depth < sd then st
    else
      let st :=
        if identifiersEqual name l.name then
          error st "Already variable with this name in this scope."
        else st
      declareVariableLoop rest name sd st

/-- compiler.c declareVariable. -/
def declareVariable (st : GState) : GState :=
  if st.cur.scopeDepth = 0 then st
  else
    let name := st.parser.previous
    let st := declareVariableLoop st.cur.locals.reverse name (st.cur.scopeDepth : Int) st
    addLocal st name

/-- compiler.c parseVariable. -/
def parseVariable (st : GState) (errorMessage : String) : GState × Nat :=
  let st := consume st .TOKEN_IDENTIFIER errorMessage
  let st := declareVariable st
  if st.cur.scopeDepth > 0 then (st, 0)
  else identifierConstant st st.parser.previous

/-- compiler.c markInitialized. -/
def markInitialized (st : GState) : GState :=
  if st.cur.scopeDepth = 0 then st
  else
    let c := st.cur
    st.setCur { c with
      locals := listModify c.locals (c.locals.length - 1)
        (fun l => { l with depth := (c.scopeDepth : Int) }) }

/-- compiler.c defineVariable. -/
def defineVariable (st : GState) (global : Nat) : GState :=
  if st.cur.scopeDepth > 0 then markInitialized st
  else emitBytes st OP_DEFINE_GLOBAL global

/-! ## The Pratt parse-rule table (compiler.c `rules`) -/

def PREC_NONE : Nat := 0
def PREC_ASSIGNMENT : Nat := 1
def PREC_OR : Nat := 2
def PREC_AND : Nat := 3
def PREC_EQUALITY : Nat := 4
def PREC_COMPARISON : Nat := 5
def PREC_TERM : Nat := 6
def PREC_FACTOR : Nat := 7
def PREC_UNARY : Nat := 8
def PREC_CALL : Nat := 9
def PREC_PRIMARY : Nat := 10

/-- Which prefix handler a rules-table row points to (the C table stores the
function pointers themselves; each tag names the compiler.c function). -/
inductive PrefixFn where
  | fGrouping | fUnary | fVariable | fString | fNumber | fLiteral
  deriving DecidableEq

/-- Which infix handler a rules-table row points to. -/
inductive InfixFn where
  | fBinary | fCall | fDot | fAnd | fOr
  deriving DecidableEq

/-- A ParseRule row: optional prefix handler, optional infix handler,
precedence. -/
structure ParseRule where
  prefixFn : Option PrefixFn
  infixFn : Option InfixFn
  precedence : Nat

/-- compiler.c rules / getRule: the whole table, row for row. -/
def getRule : TokenType → ParseRule
  | .TOKEN_LEFT_PAREN => ⟨some .fGrouping, some .fCall, PREC_CALL⟩
  | .TOKEN_RIGHT_PAREN => ⟨none, none, PREC_NONE⟩
  | .TOKEN_LEFT_BRACE => ⟨none, none, PREC_NONE⟩
  | .TOKEN_RIGHT_BRACE => ⟨none, none, PREC_NONE⟩
  | .TOKEN_COMMA => ⟨none, none, PREC_NONE⟩
  | .TOKEN_DOT => ⟨none, some .fDot, PREC_CALL⟩
  | .TOKEN_MINUS => ⟨some .fUnary, some .fBinary, PREC_TERM⟩
  | .TOKEN_PLUS => ⟨none, some .fBinary, PREC_TERM⟩
  | .TOKEN_SEMICOLON => ⟨none, none, PREC_NONE⟩
  | .TOKEN_SLASH => ⟨none, some .fBinary, PREC_FACTOR⟩
  | .TOKEN_STAR => ⟨none, some .fBinary, PREC_FACTOR⟩
  | .TOKEN_BANG => ⟨some .fUnary, none, PREC_NONE⟩
  | .TOKEN_BANG_EQUAL => ⟨none, some .fBinary, PREC_EQUALITY⟩
  | .TOKEN_EQUAL => ⟨none, none, PREC_NONE⟩
  | .TOKEN_EQUAL_EQUAL => ⟨none, some .fBinary, PREC_EQUALITY⟩
  | .TOKEN_GREATER => ⟨none, some .fBinary, PREC_COMPARISON⟩
  | .TOKEN_GREATER_EQUAL => ⟨none, some .fBinary, PREC_COMPARISON⟩
  | .TOKEN_LESS => ⟨none, some .fBinary, PREC_COMPARISON⟩
  | .TOKEN_LESS_EQUAL => ⟨none, some .fBinary, PREC_COMPARISON⟩
  | .TOKEN_IDENTIFIER => ⟨some .fVariable, none, PREC_NONE⟩
  | .TOKEN_STRING => ⟨some .fString, none, PREC_NONE⟩
  | .TOKEN_NUMBER => ⟨some .fNumber, none, PREC_NONE⟩
  | .TOKEN_AND => ⟨none, some .fAnd, PREC_AND⟩
  | .TOKEN_CLASS => ⟨none, none, PREC_NONE⟩
  | .TOKEN_ELSE => ⟨none, none, PREC_NONE⟩
  | .TOKEN_FALSE => ⟨some .fLiteral, none, PREC_NONE⟩
  | .TOKEN_FOR => ⟨none, none, PREC_NONE⟩
  | .TOKEN_FUN => ⟨none, none, PREC_NONE⟩
  | .TOKEN_IF => ⟨none, none, PREC_NONE⟩
  | .TOKEN_NIL => ⟨some .fLiteral, none, PREC_NONE⟩
  | .TOKEN_OR => ⟨none, some .fOr, PREC_OR⟩
  | .TOKEN_PRINT => ⟨none, none, PREC_NONE⟩
  | .TOKEN_RETURN => ⟨none, none, PREC_NONE⟩
  | .TOKEN_SUPER => ⟨none, none, PREC_NONE⟩
  | .TOKEN_THIS => ⟨none, none, PREC_NONE⟩
  | .TOKEN_TRUE => ⟨some .fLiteral, none, PREC_NONE⟩
  | .TOKEN_VAR => ⟨none, none, PREC_NONE⟩
  | .TOKEN_WHILE => ⟨none, none, PREC_NONE⟩
  | .TOKEN_ERROR => ⟨none, none, PREC_NONE⟩
  | .TOKEN_EOF => ⟨none, none, PREC_NONE⟩

/-! ## Non-recursive parse handlers -/

/-- Digit-sequence value. -/
def digitsVal : List Char → Nat → Nat
  | [], acc => acc
  | c :: rest, acc =>
    if isDigit c then digitsVal rest (acc * 10 + (c.toNat - 48)) else acc

/-- Model of strtod on a scanner NUMBER lexeme (digits with an optional
fractional part), producing the rational the double would denote (exact for
the small literals exercised here). -/
def strtodModel (s : List Char) : ℚ :=
  let ip := s.takeWhile isDigit
  let rest := s.dropWhile isDigit
  match rest with
  | '.' :: frac =>
    let fd := frac.takeWhile isDigit
    (digitsVal ip 0 : ℚ) + (digitsVal fd 0 : ℚ) / ((10 : ℚ) ^ fd.length)
  | _ => (digitsVal ip 0 : ℚ)

/-- compiler.c number. -/
def number (st : GState) (_canAssign : Bool) : GState :=
  emitConstant st (.num (strtodModel st.parser.previous.lexeme))

/-- compiler.c string: trim the quotes, intern, emit as a constant. -/
def string (st : GState) (_canAssign : Bool) : GState :=
  emitConstant st (.str ((st.parser.previous.lexeme.drop 1).dropLast))

/-- compiler.c literal. -/
def literal (st : GState) (_canAssign : Bool) : GState :=
  match st.parser.previous.type with
  | .TOKEN_FALSE => emitByte st OP_FALSE
  | .TOKEN_NIL => emitByte st OP_NIL
  | .TOKEN_TRUE => emitByte st OP_TRUE
  | _ => st

/-- The emit loop after OP_CLOSURE in compiler.c function: for each captured
upvalue a pair of bytes {isLocal, index}. -/
def emitUpvalues : List UpvalueC → GState → GState
  | [], st => st
  | u :: rest, st =>
    emitUpvalues rest (emitByte (emitByte st (if u.isLocal then 1 else 0)) u.index)

/-- The loop of compiler.c synchronize. -/
def syncLoop : Nat → GState → GState
  | 0, st => st
  | fuel + 1, st =>
    if st.parser.current.type = .TOKEN_EOF then st
    else if st.parser.previous.type = .TOKEN_SEMICOLON then st
    else if st.parser.current.type = .TOKEN_CLASS ∨ st.parser.current.type = .TOKEN_FUN ∨
        st.parser.current.type = .TOKEN_VAR ∨ st.parser.current.type = .TOKEN_FOR ∨
        st.parser.current.type = .TOKEN_IF ∨ st.parser.current.type = .TOKEN_WHILE ∨
        st.parser.current.type = .TOKEN_PRINT ∨ st.parser.current.type = .TOKEN_RETURN then st
    else syncLoop fuel (advance st)

/-- compiler.c synchronize: leave panic mode and skip to a statement
boundary.  Fuel `tokens.length + 1` covers the worst case (each advance
consumes a token). -/
def synchronize (st : GState) : GState :=
  syncLoop (st.tokens.length + 1)
    { st with parser := { st.parser with panicMode := false } }

/-! ## The mutually recursive parsing functions (compiler.c)

The C functions recurse through the grammar without bound; each Lean mirror
takes a fuel argument, decremented on every nested parsing call, and returns
the state unchanged on fuel 0 (concrete runs below always carry enough
fuel). -/

mutual

/-- compiler.c expression. -/
def expression : Nat → GState → GState
  | 0, st => st
  | f + 1, st => parsePrecedence f st PREC_ASSIGNMENT

  termination_by structural a0 a1 => a0

/-- compiler.c parsePrecedence. -/
def parsePrecedence : Nat → GState → Nat → GState
  | 0, st, _ => st
  | f + 1, st, precedence =>
    let st := advance st
    match (getRule st.parser.previous.type).prefixFn with
    | none => error st "Expect expression."
    | some prf =>
      let canAssign : Bool := precedence ≤ PREC_ASSIGNMENT
      let st := runPrefixFn f st prf canAssign
      let st := infixLoop f st precedence canAssign
      if canAssign then
        let (m, st) := match' st .TOKEN_EQUAL
        if m then error st "Invalid assignment target." else st
      else st

  termination_by structural a0 a1 a2 => a0

/-- The infix while-loop of parsePrecedence.  (In the C table every token
whose precedence is above PREC_NONE has an infix handler, so the
none branch is unreachable; it keeps the function total.) -/
def infixLoop : Nat → GState → Nat → Bool → GState
  | 0, st, _, _ => st
  | f + 1, st, precedence, canAssign =>
    if precedence ≤ (getRule st.parser.current.type).precedence then
      let st := advance st
      let st :=
        match (getRule st.parser.previous.type).infixFn with
        | some ifn => runInfixFn f st ifn canAssign
        | none => st
      infixLoop f st precedence canAssign
    else st

  termination_by structural a0 a1 a2 a3 => a0

/-- Dispatch a stored prefix function pointer. -/
def runPrefixFn : Nat → GState → PrefixFn → Bool → GState
  | 0, st, _, _ => st
  | f + 1, st, prf, canAssign =>
    match prf with
    | .fGrouping => grouping f st canAssign
    | .fUnary => unary f st canAssign
    | .fVariable => variable' f st canAssign
    | .fString => string st canAssign
    | .fNumber => number st canAssign
    | .fLiteral => literal st canAssign

  termination_by structural a0 a1 a2 a3 => a0

/-- Dispatch a stored infix function pointer. -/
def runInfixFn : Nat → GState → InfixFn → Bool → GState
  | 0, st, _, _ => st
  | f + 1, st, ifn, canAssign =>
    match ifn with
    | .fBinary => binary f st canAssign
    | .fCall => call f st canAssign
    | .fDot => dot f st canAssign
    | .fAnd => and_ f st canAssign
    | .fOr => or_ f st canAssign

  termination_by structural a0 a1 a2 a3 => a0

/-- compiler.c binary. -/
def binary : Nat → GState → Bool → GState
  | 0, st, _ => st
  | f + 1, st, _canAssign =>
    let operatorType := st.parser.previous.type
    let rule := getRule operatorType
    let st := parsePrecedence f st (rule.precedence + 1)
    match operatorType with
    | .TOKEN_BANG_EQUAL => emitBytes st OP_EQUAL OP_NOT
    | .TOKEN_EQUAL_EQUAL => emitByte st OP_EQUAL
    | .TOKEN_GREATER => emitByte st OP_GREATER
    | .TOKEN_GREATER_EQUAL => emitBytes st OP_LESS OP_NOT
    | .TOKEN_LESS => emitByte st OP_LESS
    | .TOKEN_LESS_EQUAL => emitBytes st OP_GREATER OP_NOT
    | .TOKEN_PLUS => emitByte st OP_ADD
    | .TOKEN_MINUS => emitByte st OP_SUBTRACT
    | .TOKEN_STAR => emitByte st OP_MULTIPLY
    | .TOKEN_SLASH => emitByte st OP_DIVIDE
    | _ => st

  termination_by structural a0 a1 a2 => a0

/-- compiler.c call (the infix handler for '('). -/
def call : Nat → GState → Bool → GState
  | 0, st, _ => st
  | f + 1, st, _canAssign =>
    let (st, argCount) := argumentList f st
    emitBytes st OP_CALL argCount

  termination_by structural a0 a1 a2 => a0

/-- compiler.c dot. -/
def dot : Nat → GState → Bool → GState
  | 0, st, _ => st
  | f + 1, st, canAssign =>
    let st := consume st .TOKEN_IDENTIFIER "Expect property name after '.'."
    let (st, name) := identifierConstant st st.parser.previous
    if canAssign then
      let (m, st) := match' st .TOKEN_EQUAL
      if m then
        let st := expression f st
        emitBytes st OP_SET_PROPERTY name
      else emitBytes st OP_GET_PROPERTY name
    else emitBytes st OP_GET_PROPERTY name

  termination_by structural a0 a1 a2 => a0

/-- compiler.c grouping. -/
def grouping : Nat → GState → Bool → GState
  | 0, st, _ => st
  | f + 1, st, _canAssign =>
    let st := expression f st
    consume st .TOKEN_RIGHT_PAREN "Expect ')' after expression."

  termination_by structural a0 a1 a2 => a0

/-- compiler.c unary. -/
def unary : Nat → GState → Bool → GState
  | 0, st, _ => st
  | f + 1, st, _canAssign =>
    let operatorType := st.parser.previous.type
    let st := parsePrecedence f st PREC_UNARY
    match operatorType with
    | .TOKEN_BANG => emitByte st OP_NOT
    | .TOKEN_MINUS => emitByte st OP_NEGATE
    | _ => st

  termination_by structural a0 a1 a2 => a0

/-- compiler.c variable (a Lean keyword, hence the prime). -/
def variable' : Nat → GState → Bool → GState
  | 0, st, _ => st
  | f + 1, st, canAssign => namedVariable f st st.parser.previous canAssign

  termination_by structural a0 a1 a2 => a0

/-- compiler.c namedVariable. -/
def namedVariable : Nat → GState → Token → Bool → GState
  | 0, st, _, _ => st
  | f + 1, st, name, canAssign =>
    let (st, localIdx) := resolveLocal st st.cur name
    let (st, getOp, setOp, arg) :=
      match localIdx with
      | some i => (st, OP_GET_LOCAL, OP_SET_LOCAL, i)
      | none =>
        let (st, upv) := resolveUpvalue st name
        match upv with
        | some i => (st, OP_GET_UPVALUE, OP_SET_UPVALUE, i)
        | none =>
          let (st, gidx) := identifierConstant st name
          (st, OP_GET_GLOBAL, OP_SET_GLOBAL, gidx)
    if canAssign then
      let (m, st) := match' st .TOKEN_EQUAL
      if m then
        let st := expression f st
        emitBytes st setOp (arg % 256)
      else emitBytes st getOp (arg % 256)
    else emitBytes st getOp (arg % 256)

  termination_by structural a0 a1 a2 a3 => a0

/-- compiler.c and_. -/
def and_ : Nat → GState → Bool → GState
  | 0, st, _ => st
  | f + 1, st, _canAssign =>
    let (st, endJump) := emitJump st OP_JUMP_IF_FALSE
    let st := emitByte st OP_POP
    let st := parsePrecedence f st PREC_AND
    patchJump st endJump

  termination_by structural a0 a1 a2 => a0

/-- compiler.c or_. -/
def or_ : Nat → GState → Bool → GState
  | 0, st, _ => st
  | f + 1, st, _canAssign =>
    let (st, elseJump) := emitJump st OP_JUMP_IF_FALSE
    let (st, endJump) := emitJump st OP_JUMP
    let st := patchJump st elseJump
    let st := emitByte st OP_POP
    let st := parsePrecedence f st PREC_OR
    patchJump st endJump

  termination_by structural a0 a1 a2 => a0

/-- compiler.c argumentList (the wrapping function). -/
def argumentList : Nat → GState → GState × Nat
  | 0, st => (st, 0)
  | f + 1, st =>
    if check st .TOKEN_RIGHT_PAREN then
      (consume st .TOKEN_RIGHT_PAREN "Expect ')' after arguments.", 0)
    else
      let (st, argCount) := argLoop f st 0
      (consume st .TOKEN_RIGHT_PAREN "Expect ')' after arguments.", argCount)

  termination_by structural a0 a1 => a0

/-- The do-while of argumentList; argCount is a uint8_t, so the increment
wraps at 256. -/
def argLoop : Nat → GState → Nat → GState × Nat
  | 0, st, n => (st, n)
  | f + 1, st, argCount =>
    let st := expression f st
    let st :=
      if argCount = 255 then error st "Can't have more than 255 arguments." else st
    let argCount := (argCount + 1) % 256
    let (m, st) := match' st .TOKEN_COMMA
    if m then argLoop f st argCount else (st, argCount)

  termination_by structural a0 a1 a2 => a0

end

/-- compiler.c classDeclaration: in this repository a class body must be
empty — the parser consumes '\x7b' and immediately expects '\x7d'; no method
declarations and no `< Superclass` clause are parsed. -/
def classDeclaration : Nat → GState → GState
  | 0, st => st
  | _f + 1, st =>
    let st := consume st .TOKEN_IDENTIFIER "Expect class name."
    let (st, nameConstant) := identifierConstant st st.parser.previous
    let st := declareVariable st
    let st := emitBytes st OP_CLASS nameConstant
    let st := defineVariable st nameConstant
    let st := consume st .TOKEN_LEFT_BRACE "Expect '\x7b' before class body."
    consume st .TOKEN_RIGHT_BRACE "Expect '\x7d' after class body."


/-- compiler.c varDeclaration. -/
def varDeclaration : Nat → GState → GState
  | 0, st => st
  | f + 1, st =>
    let (st, global) := parseVariable st "Expect variable name."
    let (m, st) := match' st .TOKEN_EQUAL
    let st := if m then expression f st else emitByte st OP_NIL
    let st := consume st .TOKEN_SEMICOLON "Expect ';' after variable declaration."
    defineVariable st global


/-- compiler.c expressionStatement (the message's leading space is the
source's). -/
def expressionStatement : Nat → GState → GState
  | 0, st => st
  | f + 1, st =>
    let st := expression f st
    let st := consume st .TOKEN_SEMICOLON " Expect ';' after expression."
    emitByte st OP_POP


/-- compiler.c printStatement. -/
def printStatement : Nat → GState → GState
  | 0, st => st
  | f + 1, st =>
    let st := expression f st
    let st := consume st .TOKEN_SEMICOLON "Expect ';' after value."
    emitByte st OP_PRINT


/-- compiler.c returnStatement. -/
def returnStatement : Nat → GState → GState
  | 0, st => st
  | f + 1, st =>
    let st :=
      if st.cur.type = .TYPE_SCRIPT then error st "Can't return from top-level code."
      else st
    let (m, st) := match' st .TOKEN_SEMICOLON
    if m then emitReturn st
    else
      let st := expression f st
      let st := consume st .TOKEN_SEMICOLON "Expect ';' after return value."
      emitByte st OP_RETURN


mutual

/-- compiler.c declaration. -/
def declaration : Nat → GState → GState
  | 0, st => st
  | f + 1, st =>
    let (m, st) := match' st .TOKEN_CLASS
    let st :=
      if m then classDeclaration f st
      else
        let (m2, st) := match' st .TOKEN_FUN
        if m2 then funDeclaration f st
        else
          let (m3, st) := match' st .TOKEN_VAR
          if m3 then varDeclaration f st
          else statement f st
    if st.parser.panicMode then synchronize st else st

  termination_by structural a0 a1 => a0

/-- compiler.c statement. -/
def statement : Nat → GState → GState
  | 0, st => st
  | f + 1, st =>
    let (m1, st) := match' st .TOKEN_PRINT
    if m1 then printStatement f st else
    let (m2, st) := match' st .TOKEN_FOR
    if m2 then forStatement f st else
    let (m3, st) := match' st .TOKEN_IF
    if m3 then ifStatement f st else
    let (m4, st) := match' st .TOKEN_RETURN
    if m4 then returnStatement f st else
    let (m5, st) := match' st .TOKEN_WHILE
    if m5 then whileStatement f st else
    let (m6, st) := match' st .TOKEN_LEFT_BRACE
    if m6 then endScope (block f (beginScope st)) else
    expressionStatement f st

  termination_by structural a0 a1 => a0

/-- compiler.c block. -/
def block : Nat → GState → GState
  | 0, st => st
  | f + 1, st =>
    if ¬ check st .TOKEN_RIGHT_BRACE ∧ ¬ check st .TOKEN_EOF then
      block f (declaration f st)
    else consume st .TOKEN_RIGHT_BRACE "Expect '\x7d' after block."

  termination_by structural a0 a1 => a0

/-- The parameter do-while of compiler.c function. -/
def paramLoop : Nat → GState → GState
  | 0, st => st
  | f + 1, st =>
    let c := st.cur
    let st := st.setCur { c with function := { c.function with arity := c.function.arity + 1 } }
    let st :=
      if st.cur.function.arity > 255 then
        errorAtCurrent st "Can't have more than 255 parameters."
      else st
    let (st, constant) := parseVariable st "Expect parameter name."
    let st := defineVariable st constant
    let (m, st) := match' st .TOKEN_COMMA
    if m then paramLoop f st else st

  termination_by structural a0 a1 => a0

/-- compiler.c function: compile a function's parameter list and body in a
fresh Compiler, then emit OP_CLOSURE with the upvalue descriptor pairs. -/
def function : Nat → GState → FunctionType → GState
  | 0, st, _ => st
  | f + 1, st, type =>
    let st := initCompiler st type
    let st := beginScope st
    let st := consume st .TOKEN_LEFT_PAREN "Expect '(' after function name."
    let st := if ¬ check st .TOKEN_RIGHT_PAREN then paramLoop f st else st
    let st := consume st .TOKEN_RIGHT_PAREN "Expect ')' after parameters."
    let st := consume st .TOKEN_LEFT_BRACE "Expect '\x7b' before function body."
    let st := block f st
    let (st, comp) := endCompiler st
    let (st, k) := makeConstant st (funcCValue comp.function)
    let st := emitBytes st OP_CLOSURE k
    emitUpvalues (comp.upvalues.take comp.function.upvalueCount) st

  termination_by structural a0 a1 a2 => a0

/-- compiler.c funDeclaration. -/
def funDeclaration : Nat → GState → GState
  | 0, st => st
  | f + 1, st =>
    let (st, global) := parseVariable st "Expect function name."
    let st := markInitialized st
    let st := function f st .TYPE_FUNCTION
    defineVariable st global

  termination_by structural a0 a1 => a0

/-- compiler.c forStatement. -/
def forStatement : Nat → GState → GState
  | 0, st => st
  | f + 1, st =>
    let st := beginScope st
    let st := consume st .TOKEN_LEFT_PAREN "Expect '(' after 'for'."
    let (m, st) := match' st .TOKEN_SEMICOLON
    let st :=
      if m then st
      else
        let (mv, st) := match' st .TOKEN_VAR
        if mv then varDeclaration f st else expressionStatement f st
    let loopStart := (currentChunk st).code.length
    let (mSemi, st) := match' st .TOKEN_SEMICOLON
    let (st, exitJump) :=
      if ¬ mSemi then
        let st := expression f st
        let st := consume st .TOKEN_SEMICOLON "Expect ';' after loop condition."
        let (st, ej) := emitJump st OP_JUMP_IF_FALSE
        (emitByte st OP_POP, some ej)
      else (st, none)
    let (mRp, st) := match' st .TOKEN_RIGHT_PAREN
    let (st, loopStart) :=
      if ¬ mRp then
        let (st, bodyJump) := emitJump st OP_JUMP
        let incrementStart := (currentChunk st).code.length
        let st := expression f st
        let st := emitByte st OP_POP
        let st := consume st .TOKEN_RIGHT_PAREN "Expect ')' after for clauses."
        let st := emitLoop st loopStart
        let st := patchJump st bodyJump
        (st, incrementStart)
      else (st, loopStart)
    let st := statement f st
    let st := emitLoop st loopStart
    let st :=
      match exitJump with
      | some ej => emitByte (patchJump st ej) OP_POP
      | none => st
    endScope st

  termination_by structural a0 a1 => a0

/-- compiler.c ifStatement. -/
def ifStatement : Nat → GState → GState
  | 0, st => st
  | f + 1, st =>
    let st := consume st .TOKEN_LEFT_PAREN "Expect '(' after 'if'."
    let st := expression f st
    let st := consume st .TOKEN_RIGHT_PAREN "Expect ')' after condition."
    let (st, thenJump) := emitJump st OP_JUMP_IF_FALSE
    let st := emitByte st OP_POP
    let st := statement f st
    let (st, elseJump) := emitJump st OP_JUMP
    let st := patchJump st thenJump
    let st := emitByte st OP_POP
    let (m, st) := match' st .TOKEN_ELSE
    let st := if m then statement f st else st
    patchJump st elseJump

  termination_by structural a0 a1 => a0

/-- compiler.c whileStatement. -/
def whileStatement : Nat → GState → GState
  | 0, st => st
  | f + 1, st =>
    let loopStart := (currentChunk st).code.length
    let st := consume st .TOKEN_LEFT_PAREN "Expect '(' after 'while'."
    let st := expression f st
    let st := consume st .TOKEN_RIGHT_PAREN "Expect ')' after condition."
    let (st, exitJump) := emitJump st OP_JUMP_IF_FALSE
    let st := emitByte st OP_POP
    let st := statement f st
    let st := emitLoop st loopStart
    let st := patchJump st exitJump
    emitByte st OP_POP

  termination_by structural a0 a1 => a0

/-- The top-level while of compiler.c compile. -/
def compileLoop : Nat → GState → GState
  | 0, st => st
  | f + 1, st =>
    let (m, st) := match' st .TOKEN_EOF
    if m then st else compileLoop f (declaration f st)

  termination_by structural a0 a1 => a0

end

/-- compiler.c compile: scan, prime the parser, parse declarations to EOF,
finish the top-level function; null (none) when any diagnostic was
reported. -/
def compileFull (source : List Char) (fuel : Nat) : Option ObjFunctionC × GState :=
  let st : GState :=
    { parser := ⟨eofToken, eofToken, false, false⟩,
      compilers := [], tokens := tokenize source, messages := [] }
  let st := initCompiler st .TYPE_SCRIPT
  let st := { st with parser := { st.parser with hadError := false, panicMode := false } }
  let st := advance st
  let st := compileLoop fuel st
  let (st, comp) := endCompiler st
  (if st.parser.hadError then none else some comp.function, st)

/-- compile with fuel amply proportional to the source (fuel is a
totality artifact: every concrete program below is far within it). -/
def compile (source : List Char) : Option ObjFunctionC × GState :=
  compileFull source (source.length * 8 + 64)

/-! ## Runtime values and heap objects (value.h, object.h)

The interpreter-level Value is the tagged dynamic value (nil, boolean,
number, heap-object reference); heap objects live in an explicit heap list
indexed by object id (the C heap pointer).  String-keyed hash tables
(globals, methods, fields) are keyed by the interned string's object id,
exactly as the C tables key on the ObjString pointer.  The VM namespace
keeps the C names (vm.c's static `call` and compiler.c's parse handler
`call` are distinct functions). -/

namespace VM

inductive RtValue where
  | vNil
  | vBool (b : Bool)
  | vNumber (q : ℚ)
  | vObj (id : Nat)
  deriving DecidableEq

/-- An ObjUpvalue's location: open = pointing at a stack slot, closed =
owning the hoisted value in its own `closed` field. -/
inductive UpvState where
  | openAt (slot : Nat)
  | closedVal (v : RtValue)
  deriving DecidableEq

/-- The heap object variants of object.h.  A native function is modelled as
a bare tag: the only native, clockNative, returns the process clock, which
the model abstracts as the number 0 (no claim exercises it). -/
inductive HObj where
  | oString (chars : List Char)
  | oFunction (arity upvalueCount : Nat) (code lines : List Nat)
      (constants : List RtValue) (name : Option (List Char))
  | oNative
  | oClosure (function : Nat) (upvalues : List Nat)
  | oUpvalue (u : UpvState)
  | oClass (name : Nat) (methods : List (Nat × RtValue))
  | oInstance (klass : Nat) (fields : List (Nat × RtValue))
  | oBoundMethod (receiver : RtValue) (method : Nat)
  deriving DecidableEq

/-- vm.h FRAMES_MAX. -/
def FRAMES_MAX : Nat := 64

/-- vm.h STACK_MAX. -/
def STACK_MAX : Nat := FRAMES_MAX * 256

/-- vm.h CallFrame: closure object id, instruction offset into its chunk,
and the frame's base slot in the value stack (the `slots` pointer). -/
structure CallFrame where
  closure : Nat
  ip : Nat
  slots : Nat
  deriving DecidableEq

/-- vm.h VM: frames (head = innermost), the value stack (index 0 = bottom),
globals and the weak string-intern set, the interned "init" string, the open
upvalue list (head = highest stack slot), the heap, and the values printed
so far (stdout). -/
structure VMState where
  frames : List CallFrame
  stack : List RtValue
  globals : List (Nat × RtValue)
  strings : List Nat
  initString : Nat
  openUpvalues : List Nat
  heap : List HObj
  printed : List RtValue
  deriving DecidableEq

/-- vm.h InterpretResult; a runtime error carries the message the C
runtimeError printed to stderr. -/
inductive InterpretResult where
  | INTERPRET_OK
  | INTERPRET_COMPILE_ERROR
  | INTERPRET_RUNTIME_ERROR (msg : String)
  deriving DecidableEq

/-! ### Hash tables (table.c) at the key-value level

The open-addressing table with tombstones is modelled by an association
list: findEntry compares keys by ObjString pointer, which the model renders
as object-id equality (interning makes content-equal strings
pointer-equal). -/

/-- table.c tableGet. -/
def tableGet : List (Nat × RtValue) → Nat → Option RtValue
  | [], _ => none
  | (k, v) :: rest, key => if k = key then some v else tableGet rest key

/-- table.c tableSet: true iff the key is new. -/
def tableSet : List (Nat × RtValue) → Nat → RtValue → List (Nat × RtValue) × Bool
  | [], key, value => ([(key, value)], true)
  | (k, v) :: rest, key, value =>
    if k = key then ((k, value) :: rest, false)
    else
      let (rest', isNewKey) := tableSet rest key value
      ((k, v) :: rest', isNewKey)

/-- table.c tableDelete (the tombstone makes the entry invisible to lookups;
the model removes it). -/
def tableDelete : List (Nat × RtValue) → Nat → List (Nat × RtValue)
  | [], _ => []
  | (k, v) :: rest, key => if k = key then rest else (k, v) :: tableDelete rest key

/-- table.c tableAddAll. -/
def tableAddAll (src dst : List (Nat × RtValue)) : List (Nat × RtValue) :=
  src.foldl (fun t kv => (tableSet t kv.1 kv.2).1) dst

/-! ### Heap helpers and string interning (object.c) -/

def heapGet (heap : List HObj) (id : Nat) : Option HObj := heap.get? id

def heapSet (heap : List HObj) (id : Nat) (o : HObj) : List HObj := heap.set id o

/-- allocateObject: append to the heap (the all-objects list), returning the
new object's id. -/
def allocate (heap : List HObj) (o : HObj) : List HObj × Nat :=
  (heap ++ [o], heap.length)

def stringChars (heap : List HObj) (id : Nat) : List Char :=
  match heap.get? id with
  | some (.oString s) => s
  | _ => []

/-- table.c tableFindString over the intern set: the id of a live string
with these exact characters (length+hash+memcmp in C). -/
def tableFindString (heap : List HObj) (strings : List Nat) (chars : List Char) :
    Option Nat :=
  strings.find? (fun id => stringChars heap id == chars)

/-- object.c allocateString: make the object and add it to the intern set
(the C transiently pushes the string on the VM stack for GC safety; the
model has no collection barrier to protect against). -/
def allocateString (vm : VMState) (chars : List Char) : VMState × Nat :=
  let (heap, id) := allocate vm.heap (.oString chars)
  ({ vm with heap := heap, strings := vm.strings ++ [id] }, id)

/-- object.c takeString: reuse the interned string when the bytes already
exist (the C frees the redundant buffer), else allocate. -/
def takeString (vm : VMState) (chars : List Char) : VMState × Nat :=
  match tableFindString vm.heap vm.strings chars with
  | some interned => (vm, interned)
  | none => allocateString vm chars

/-- object.c copyString: identical to takeString at this level (the C copies
the borrowed bytes first). -/
def copyString (vm : VMState) (chars : List Char) : VMState × Nat :=
  match tableFindString vm.heap vm.strings chars with
  | some interned => (vm, interned)
  | none => allocateString vm chars

/-! ### Basic VM stack operations (vm.c) -/

/-- vm.c push. -/
def push (vm : VMState) (value : RtValue) : VMState :=
  { vm with stack := vm.stack ++ [value] }

/-- vm.c pop (popping an empty stack is unreachable C undefined behaviour;
the model returns nil). -/
def pop (vm : VMState) : VMState × RtValue :=
  ({ vm with stack := vm.stack.dropLast }, vm.stack.getLastD .vNil)

/-- vm.c peek. -/
def peek (vm : VMState) (distance : Nat) : RtValue :=
  vm.stack.getD (vm.stack.length - 1 - distance) .vNil

/-- vm.c resetStack. -/
def resetStack (vm : VMState) : VMState :=
  { vm with stack := [], frames := [], openUpvalues := [] }

/-- vm.c runtimeError: the message is carried in the INTERPRET_RUNTIME_ERROR
result (the stack-trace printing is not modelled); the stacks are reset. -/
def runtimeError (vm : VMState) : VMState := resetStack vm

/-! ### Object accessors (the C pointer dereferences) -/

def asObjId (v : RtValue) : Nat :=
  match v with
  | .vObj id => id
  | _ => 0

/-- AS_CLOSURE(...)->function. -/
def closureFunction (vm : VMState) (cid : Nat) : Nat :=
  match heapGet vm.heap cid with
  | some (.oClosure f _) => f
  | _ => 0

def closureUpvalues (vm : VMState) (cid : Nat) : List Nat :=
  match heapGet vm.heap cid with
  | some (.oClosure _ ups) => ups
  | _ => []

/-- closure->function->arity. -/
def closureArity (vm : VMState) (cid : Nat) : Nat :=
  match heapGet vm.heap (closureFunction vm cid) with
  | some (.oFunction arity _ _ _ _ _) => arity
  | _ => 0

/-- closure->function->chunk.code. -/
def closureCode (vm : VMState) (cid : Nat) : List Nat :=
  match heapGet vm.heap (closureFunction vm cid) with
  | some (.oFunction _ _ code _ _ _) => code
  | _ => []

/-- closure->function->chunk.constants. -/
def closureConstants (vm : VMState) (cid : Nat) : List RtValue :=
  match heapGet vm.heap (closureFunction vm cid) with
  | some (.oFunction _ _ _ _ constants _) => constants
  | _ => []

/-- closure->function->upvalueCount. -/
def functionUpvalueCount (vm : VMState) (fid : Nat) : Nat :=
  match heapGet vm.heap fid with
  | some (.oFunction _ upvalueCount _ _ _ _) => upvalueCount
  | _ => 0

def classMethods (vm : VMState) (kid : Nat) : List (Nat × RtValue) :=
  match heapGet vm.heap kid with
  | some (.oClass _ methods) => methods
  | _ => []

/-- IS_STRING. -/
def isStringV (vm : VMState) (v : RtValue) : Bool :=
  match v with
  | .vObj id =>
    match heapGet vm.heap id with
    | some (.oString _) => true
    | _ => false
  | _ => false

/-- IS_NUMBER. -/
def isNumberV (v : RtValue) : Bool :=
  match v with
  | .vNumber _ => true
  | _ => false

/-- IS_CLASS. -/
def isClassV (vm : VMState) (v : RtValue) : Bool :=
  match v with
  | .vObj id =>
    match heapGet vm.heap id with
    | some (.oClass _ _) => true
    | _ => false
  | _ => false

/-- IS_INSTANCE. -/
def isInstanceV (vm : VMState) (v : RtValue) : Bool :=
  match v with
  | .vObj id =>
    match heapGet vm.heap id with
    | some (.oInstance _ _) => true
    | _ => false
  | _ => false

/-- value.c valuesEqual for the interpreter's tagged values (the bit-level
models of both representations are below, with the NaN behaviour). -/
def valuesEqual (a b : RtValue) : Bool :=
  match a, b with
  | .vBool x, .vBool y => x == y
  | .vNil, .vNil => true
  | .vNumber x, .vNumber y => x == y
  | .vObj x, .vObj y => x == y
  | _, _ => false

/-! ### Calls and upvalues (vm.c) -/

/-- The outcome of the call-setup helpers: either the VM continues with a
new state, or a runtime error aborts interpretation. -/
inductive CallRes where
  | ok (vm : VMState)
  | err (msg : String) (vm : VMState)

/-- vm.c call: arity check, then the FRAMES_MAX == 64 overflow check, then
push the frame with slots = stackTop - argCount - 1. -/
def call (vm : VMState) (closure : Nat) (argCount : Nat) : CallRes :=
  if argCount ≠ closureArity vm closure then
    .err ("Expected " ++ toString (closureArity vm closure) ++ " arguments but got "
        ++ toString argCount ++ ".") (runtimeError vm)
  else if vm.frames.length = FRAMES_MAX then
    .err "Stack overflow." (runtimeError vm)
  else
    .ok { vm with frames := ⟨closure, 0, vm.stack.length - argCount - 1⟩ :: vm.frames }

/-- vm.c callValue. -/
def callValue (vm : VMState) (callee : RtValue) (argCount : Nat) : CallRes :=
  match callee with
  | .vObj id =>
    match heapGet vm.heap id with
    | some (.oBoundMethod receiver method) =>
      let vm := { vm with stack := vm.stack.set (vm.stack.length - argCount - 1) receiver }
      call vm method argCount
    | some (.oClass _ methods) =>
      let (heap, inst) := allocate vm.heap (.oInstance id [])
      let vm := { vm with heap := heap }
      let vm := { vm with stack := vm.stack.set (vm.stack.length - argCount - 1) (.vObj inst) }
      match tableGet methods vm.initString with
      | some initializer => call vm (asObjId initializer) argCount
      | none =>
        if argCount ≠ 0 then
          .err ("Expected 0 arguments but got " ++ toString argCount ++ ".") (runtimeError vm)
        else .ok vm
    | some (.oClosure _ _) => call vm id argCount
    | some .oNative =>
      -- clockNative, modelled as returning 0
      let result : RtValue := .vNumber 0
      let vm := { vm with stack := vm.stack.take (vm.stack.length - (argCount + 1)) }
      .ok (push vm result)
    | _ => .err "Can only call functions and classes." (runtimeError vm)
  | _ => .err "Can only call functions and classes." (runtimeError vm)

/-- vm.c invokeFromClass. -/
def invokeFromClass (vm : VMState) (klass : Nat) (name : Nat) (argCount : Nat) : CallRes :=
  match tableGet (classMethods vm klass) name with
  | none =>
    .err ("Undefined property '" ++ String.mk (stringChars vm.heap name) ++ "'.")
      (runtimeError vm)
  | some method => call vm (asObjId method) argCount

/-- vm.c invoke. -/
def invoke (vm : VMState) (name : Nat) (argCount : Nat) : CallRes :=
  let receiver := peek vm argCount
  match receiver with
  | .vObj id =>
    match heapGet vm.heap id with
    | some (.oInstance klass fields) =>
      match tableGet fields name with
      | some value =>
        let vm := { vm with stack := vm.stack.set (vm.stack.length - argCount - 1) value }
        callValue vm value argCount
      | none => invokeFromClass vm klass name argCount
    | _ => .err "Only instances have methods." (runtimeError vm)
  | _ => .err "Only instances have methods." (runtimeError vm)

/-- vm.c bindMethod: on success the receiver on top of the stack is replaced
by a fresh bound method. -/
def bindMethod (vm : VMState) (klass : Nat) (name : Nat) : CallRes :=
  match tableGet (classMethods vm klass) name with
  | none =>
    .err ("Undefined property '" ++ String.mk (stringChars vm.heap name) ++ "'.")
      (runtimeError vm)
  | some method =>
    let (heap, bid) := allocate vm.heap (.oBoundMethod (peek vm 0) (asObjId method))
    let vm := { vm with heap := heap }
    let (vm, _) := pop vm
    .ok (push vm (.vObj bid))

/-- The stack slot an open upvalue points at (closed upvalues never sit on
the open list). -/
def uvSlotOf (heap : List HObj) (id : Nat) : Nat :=
  match heapGet heap id with
  | some (.oUpvalue (.openAt slot)) => slot
  | _ => 0

/-- The list walk of vm.c captureUpvalue: skip entries above the wanted
slot; reuse an exact match; otherwise splice a fresh upvalue (id `newId`)
in order.  Returns (new list, returned id, whether a new one was created). -/
def captureGo (heap : List HObj) (localSlot : Nat) (newId : Nat) :
    List Nat → List Nat × Nat × Bool
  | [] => ([newId], newId, true)
  | id :: rest =>
    if uvSlotOf heap id > localSlot then
      let (l, r, created) := captureGo heap localSlot newId rest
      (id :: l, r, created)
    else if uvSlotOf heap id = localSlot then (id :: rest, id, false)
    else (newId :: id :: rest, newId, true)

/-- vm.c captureUpvalue. -/
def captureUpvalue (vm : VMState) (localSlot : Nat) : VMState × Nat :=
  let newId := vm.heap.length
  let (openList, ret, created) := captureGo vm.heap localSlot newId vm.openUpvalues
  if created then
    let vm := { vm with heap := vm.heap ++ [HObj.oUpvalue (.openAt localSlot)] }
    ({ vm with openUpvalues := openList }, ret)
  else ({ vm with openUpvalues := openList }, ret)

/-- The unlink loop of vm.c closeUpvalues: while the head open upvalue's
location is at or above `last`, copy the pointed-at stack value into the
upvalue's closed slot and unlink it.  The first argument is the current
vm.openUpvalues list (kept in step with the state's field). -/
def closeGo : List Nat → VMState → Nat → VMState
  | [], vm, _ => vm
  | id :: rest, vm, last =>
    if uvSlotOf vm.heap id ≥ last then
      let v := vm.stack.getD (uvSlotOf vm.heap id) .vNil
      let vm := { vm with heap := heapSet vm.heap id (.oUpvalue (.closedVal v)) }
      let vm := { vm with openUpvalues := rest }
      closeGo rest vm last
    else vm

/-- vm.c closeUpvalues. -/
def closeUpvalues (vm : VMState) (last : Nat) : VMState :=
  closeGo vm.openUpvalues vm last

/-- vm.c defineMethod: attach the closure on top of the stack to the class
below it, then pop the closure. -/
def defineMethod (vm : VMState) (name : Nat) : VMState :=
  let method := peek vm 0
  let klassId := asObjId (peek vm 1)
  match heapGet vm.heap klassId with
  | some (.oClass cname methods) =>
    let vm := { vm with
      heap := heapSet vm.heap klassId (.oClass cname (tableSet methods name method).1) }
    (pop vm).1
  | _ => (pop vm).1

/-- vm.c isFalsey. -/
def isFalsey (value : RtValue) : Bool :=
  match value with
  | .vNil => true
  | .vBool b => !b
  | _ => false

/-- vm.c concatenate: both operands stay on the stack until the interned
result exists, then both are popped and the result pushed. -/
def concatenate (vm : VMState) : VMState :=
  let b := stringChars vm.heap (asObjId (peek vm 0))
  let a := stringChars vm.heap (asObjId (peek vm 1))
  let (vm, result) := takeString vm (a ++ b)
  let (vm, _) := pop vm
  let (vm, _) := pop vm
  push vm (.vObj result)

/-! ### The dispatch loop (vm.c run) -/

/-- One outcome of a dispatch step: continue, or leave the loop with an
InterpretResult (OK from OP_RETURN of the last frame, or a runtime error). -/
inductive Step where
  | cont (vm : VMState)
  | halt (res : InterpretResult) (vm : VMState)

def curFrame (vm : VMState) : CallFrame := vm.frames.headD ⟨0, 0, 0⟩

def setFrame (vm : VMState) (fr : CallFrame) : VMState :=
  { vm with frames := fr :: vm.frames.tail }

/-- READ_BYTE. -/
def readByteF (vm : VMState) : Nat × VMState :=
  let fr := curFrame vm
  let b := (closureCode vm fr.closure).getD fr.ip 0
  (b, setFrame vm { fr with ip := fr.ip + 1 })

/-- READ_SHORT (big-endian). -/
def readShortF (vm : VMState) : Nat × VMState :=
  let (hi, vm) := readByteF vm
  let (lo, vm) := readByteF vm
  (hi * 256 + lo, vm)

/-- READ_CONSTANT. -/
def readConstantF (vm : VMState) : RtValue × VMState :=
  let (idx, vm) := readByteF vm
  ((closureConstants vm (curFrame vm).closure).getD idx .vNil, vm)

/-- READ_STRING: the constant as an ObjString id. -/
def readStringF (vm : VMState) : Nat × VMState :=
  let (v, vm) := readConstantF vm
  (asObjId v, vm)

/-- The body of the OP_SET_GLOBAL case of run(): tableSet; if the key was
new the variable was undefined, so the transient entry is deleted again and
a runtime error raised; on success the assigned value is not popped. -/
def opSetGlobal (vm : VMState) (name : Nat) : Step :=
  let (globals1, isNewKey) := tableSet vm.globals name (peek vm 0)
  if isNewKey then
    let vm := { vm with globals := tableDelete globals1 name }
    .halt (.INTERPRET_RUNTIME_ERROR
      ("Undefined variable '" ++ String.mk (stringChars vm.heap name) ++ "'."))
      (runtimeError vm)
  else .cont { vm with globals := globals1 }

/-- The body of the OP_ADD case of run(): two strings concatenate, two
numbers add, anything else is a runtime error. -/
def opAdd (vm : VMState) : Step :=
  if isStringV vm (peek vm 0) ∧ isStringV vm (peek vm 1) then
    .cont (concatenate vm)
  else if isNumberV (peek vm 0) ∧ isNumberV (peek vm 1) then
    let (vm, bv) := pop vm
    let (vm, av) := pop vm
    match av, bv with
    | .vNumber a, .vNumber b => .cont (push vm (.vNumber (a + b)))
    | _, _ => .cont vm
  else
    .halt (.INTERPRET_RUNTIME_ERROR "Operands must be two numbers or two strings.")
      (runtimeError vm)

/-- The body of the OP_INHERIT case of run(): the superclass (below the
subclass on the stack) must be a class; its method table is copied into the
subclass's, and the subclass popped. -/
def opInherit (vm : VMState) : Step :=
  let superclass := peek vm 1
  if ¬ isClassV vm superclass then
    .halt (.INTERPRET_RUNTIME_ERROR "Superclass must be a class.") (runtimeError vm)
  else
    let subId := asObjId (peek vm 0)
    match heapGet vm.heap subId with
    | some (.oClass sname subMethods) =>
      let merged := tableAddAll (classMethods vm (asObjId superclass)) subMethods
      let vm := { vm with heap := heapSet vm.heap subId (.oClass sname merged) }
      .cont (pop vm).1
    | _ => .cont (pop vm).1

/-- BINARY_OP for OP_GREATER / OP_LESS / OP_SUBTRACT / OP_MULTIPLY /
OP_DIVIDE: both operands must be numbers. -/
def binaryOp (vm : VMState) (mk : ℚ → ℚ → RtValue) : Step :=
  if ¬ isNumberV (peek vm 0) ∨ ¬ isNumberV (peek vm 1) then
    .halt (.INTERPRET_RUNTIME_ERROR "Operands must be numbers.") (runtimeError vm)
  else
    let (vm, bv) := pop vm
    let (vm, av) := pop vm
    match av, bv with
    | .vNumber a, .vNumber b => .cont (push vm (mk a b))
    | _, _ => .cont vm

/-- The upvalue-capture loop of the OP_CLOSURE case: read {isLocal, index}
pairs and fill the closure's upvalue array. -/
def closureCaptureLoop : Nat → VMState → Nat → VMState
  | 0, vm, _ => vm
  | n + 1, vm, cid =>
    let (isLocal, vm) := readByteF vm
    let (index, vm) := readByteF vm
    let fr := curFrame vm
    let (vm, uvId) :=
      if isLocal ≠ 0 then captureUpvalue vm (fr.slots + index)
      else (vm, (closureUpvalues vm fr.closure).getD index 0)
    let vm :=
      match heapGet vm.heap cid with
      | some (.oClosure f ups) =>
        { vm with heap := heapSet vm.heap cid (.oClosure f (ups ++ [uvId])) }
      | _ => vm
    closureCaptureLoop n vm cid

/-- One iteration of the vm.c run() dispatch switch. -/
def step (vm : VMState) : Step :=
  match vm.frames with
  | [] => .halt (.INTERPRET_RUNTIME_ERROR "no call frame") vm
  | frame :: _ =>
    match (closureCode vm frame.closure).get? frame.ip with
    | none => .halt (.INTERPRET_RUNTIME_ERROR "ip out of range") vm
    | some instruction =>
      let vm := setFrame vm { frame with ip := frame.ip + 1 }
      if instruction = OP_CONSTANT then
        let (c, vm) := readConstantF vm
        .cont (push vm c)
      else if instruction = OP_NIL then .cont (push vm .vNil)
      else if instruction = OP_TRUE then .cont (push vm (.vBool true))
      else if instruction = OP_FALSE then .cont (push vm (.vBool false))
      else if instruction = OP_POP then .cont (pop vm).1
      else if instruction = OP_GET_LOCAL then
        let (slot, vm) := readByteF vm
        .cont (push vm (vm.stack.getD ((curFrame vm).slots + slot) .vNil))
      else if instruction = OP_SET_LOCAL then
        let (slot, vm) := readByteF vm
        .cont { vm with stack := vm.stack.set ((curFrame vm).slots + slot) (peek vm 0) }
      else if instruction = OP_GET_GLOBAL then
        let (name, vm) := readStringF vm
        match tableGet vm.globals name with
        | none =>
          .halt (.INTERPRET_RUNTIME_ERROR
            ("Undefined variable '" ++ String.mk (stringChars vm.heap name) ++ "'."))
            (runtimeError vm)
        | some value => .cont (push vm value)
      else if instruction = OP_DEFINE_GLOBAL then
        let (name, vm) := readStringF vm
        let vm := { vm with globals := (tableSet vm.globals name (peek vm 0)).1 }
        .cont (pop vm).1
      else if instruction = OP_SET_GLOBAL then
        let (name, vm) := readStringF vm
        opSetGlobal vm name
      else if instruction = OP_GET_UPVALUE then
        let (slot, vm) := readByteF vm
        let uvId := (closureUpvalues vm (curFrame vm).closure).getD slot 0
        let value :=
          match heapGet vm.heap uvId with
          | some (.oUpvalue (.openAt s)) => vm.stack.getD s .vNil
          | some (.oUpvalue (.closedVal v)) => v
          | _ => .vNil
        .cont (push vm value)
      else if instruction = OP_SET_UPVALUE then
        let (slot, vm) := readByteF vm
        let uvId := (closureUpvalues vm (curFrame vm).closure).getD slot 0
        match heapGet vm.heap uvId with
        | some (.oUpvalue (.openAt s)) =>
          .cont { vm with stack := vm.stack.set s (peek vm 0) }
        | some (.oUpvalue (.closedVal _)) =>
          .cont { vm with heap := heapSet vm.heap uvId (.oUpvalue (.closedVal (peek vm 0))) }
        | _ => .cont vm
      else if instruction = OP_GET_PROPERTY then
        if ¬ isInstanceV vm (peek vm 0) then
          .halt (.INTERPRET_RUNTIME_ERROR "Only instances have properties.") (runtimeError vm)
        else
          let (name, vm) := readStringF vm
          match heapGet vm.heap (asObjId (peek vm 0)) with
          | some (.oInstance klass fields) =>
            (match tableGet fields name with
             | some value =>
               let (vm, _) := pop vm
               .cont (push vm value)
             | none =>
               match bindMethod vm klass name with
               | .ok vm => .cont vm
               | .err msg vm => .halt (.INTERPRET_RUNTIME_ERROR msg) vm)
          | _ => .cont vm
      else if instruction = OP_SET_PROPERTY then
        if ¬ isInstanceV vm (peek vm 1) then
          .halt (.INTERPRET_RUNTIME_ERROR "Only instances have fields.") (runtimeError vm)
        else
          let (name, vm) := readStringF vm
          let instId := asObjId (peek vm 1)
          let vm :=
            match heapGet vm.heap instId with
            | some (.oInstance klass fields) =>
              { vm with heap := heapSet vm.heap instId (.oInstance klass (tableSet fields name (peek vm 0)).1) }
            | _ => vm
          let (vm, value) := pop vm
          let (vm, _) := pop vm
          .cont (push vm value)
      else if instruction = OP_GET_SUPER then
        let (name, vm) := readStringF vm
        let (vm, sup) := pop vm
        match bindMethod vm (asObjId sup) name with
        | .ok vm => .cont vm
        | .err msg vm => .halt (.INTERPRET_RUNTIME_ERROR msg) vm
      else if instruction = OP_EQUAL then
        let (vm, b) := pop vm
        let (vm, a) := pop vm
        .cont (push vm (.vBool (valuesEqual a b)))
      else if instruction = OP_GREATER then
        binaryOp vm (fun a b => .vBool (a > b))
      else if instruction = OP_LESS then
        binaryOp vm (fun a b => .vBool (a < b))
      else if instruction = OP_ADD then opAdd vm
      else if instruction = OP_SUBTRACT then
        binaryOp vm (fun a b => .vNumber (a - b))
      else if instruction = OP_MULTIPLY then
        binaryOp vm (fun a b => .vNumber (a * b))
      else if instruction = OP_DIVIDE then
        binaryOp vm (fun a b => .vNumber (a / b))
      else if instruction = OP_NOT then
        let (vm, v) := pop vm
        .cont (push vm (.vBool (isFalsey v)))
      else if instruction = OP_NEGATE then
        if ¬ isNumberV (peek vm 0) then
          .halt (.INTERPRET_RUNTIME_ERROR "Operand must be a number.") (runtimeError vm)
        else
          let (vm, v) := pop vm
          match v with
          | .vNumber n => .cont (push vm (.vNumber (-n)))
          | _ => .cont vm
      else if instruction = OP_PRINT then
        let (vm, v) := pop vm
        .cont { vm with printed := vm.printed ++ [v] }
      else if instruction = OP_JUMP then
        let (offset, vm) := readShortF vm
        let fr := curFrame vm
        .cont (setFrame vm { fr with ip := fr.ip + offset })
      else if instruction = OP_JUMP_IF_FALSE then
        let (offset, vm) := readShortF vm
        if isFalsey (peek vm 0) then
          let fr := curFrame vm
          .cont (setFrame vm { fr with ip := fr.ip + offset })
        else .cont vm
      else if instruction = OP_LOOP then
        let (offset, vm) := readShortF vm
        let fr := curFrame vm
        .cont (setFrame vm { fr with ip := fr.ip - offset })
      else if instruction = OP_CALL then
        let (argCount, vm) := readByteF vm
        match callValue vm (peek vm argCount) argCount with
        | .ok vm => .cont vm
        | .err msg vm => .halt (.INTERPRET_RUNTIME_ERROR msg) vm
      else if instruction = OP_INVOKE then
        let (method, vm) := readStringF vm
        let (argCount, vm) := readByteF vm
        match invoke vm method argCount with
        | .ok vm => .cont vm
        | .err msg vm => .halt (.INTERPRET_RUNTIME_ERROR msg) vm
      else if instruction = OP_SUPER_INVOKE then
        let (method, vm) := readStringF vm
        let (argCount, vm) := readByteF vm
        let (vm, sup) := pop vm
        match invokeFromClass vm (asObjId sup) method argCount with
        | .ok vm => .cont vm
        | .err msg vm => .halt (.INTERPRET_RUNTIME_ERROR msg) vm
      else if instruction = OP_CLOSURE then
        let (fv, vm) := readConstantF vm
        let fid := asObjId fv
        let (heap, cid) := allocate vm.heap (.oClosure fid [])
        let vm := { vm with heap := heap }
        let vm := push vm (.vObj cid)
        .cont (closureCaptureLoop (functionUpvalueCount vm fid) vm cid)
      else if instruction = OP_CLOSE_UPVALUE then
        let vm := closeUpvalues vm (vm.stack.length - 1)
        .cont (pop vm).1
      else if instruction = OP_RETURN then
        let (vm, result) := pop vm
        let fr := curFrame vm
        let vm := closeUpvalues vm fr.slots
        let vm := { vm with frames := vm.frames.tail }
        if vm.frames.isEmpty then
          .halt .INTERPRET_OK (pop vm).1
        else
          let vm := { vm with stack := vm.stack.take fr.slots }
          .cont (push vm result)
      else if instruction = OP_CLASS then
        let (name, vm) := readStringF vm
        let (heap, kid) := allocate vm.heap (.oClass name [])
        let vm := { vm with heap := heap }
        .cont (push vm (.vObj kid))
      else if instruction = OP_INHERIT then opInherit vm
      else if instruction = OP_METHOD then
        let (name, vm) := readStringF vm
        .cont (defineMethod vm name)
      else .halt (.INTERPRET_RUNTIME_ERROR "unknown opcode") vm

/-- The dispatch loop, with fuel (the C loop runs until OP_RETURN pops the
last frame or a runtime error aborts). -/
def runLoop : Nat → VMState → InterpretResult × VMState
  | 0, vm => (.INTERPRET_RUNTIME_ERROR "out of fuel", vm)
  | fuel + 1, vm =>
    match step vm with
    | .cont vm => runLoop fuel vm
    | .halt res vm => (res, vm)

/-! ### Loading a compiled function into the heap and interpreting

The C compiler allocates its string and function constants on the VM heap
while compiling; the model performs those allocations (interning included)
when the finished top-level function is handed to the VM — the observable
object graph is the same. -/

mutual

def loadConst : CValue → VMState → VMState × RtValue
  | .num q, vm => (vm, .vNumber q)
  | .str s, vm =>
    let (vm, id) := copyString vm s
    (vm, .vObj id)
  | .func arity upvalueCount code lines constants name, vm =>
    let (vm, constants') := loadConsts constants vm
    let (heap, id) := allocate vm.heap (.oFunction arity upvalueCount code lines constants' name)
    ({ vm with heap := heap }, .vObj id)

def loadConsts : List CValue → VMState → VMState × List RtValue
  | [], vm => (vm, [])
  | c :: rest, vm =>
    let (vm, v) := loadConst c vm
    let (vm, vs) := loadConsts rest vm
    (vm, v :: vs)

end

/-- vm.c initVM: empty state, intern "init", define the native clock. -/
def initVM : VMState :=
  let vm : VMState :=
    { frames := [], stack := [], globals := [], strings := [], initString := 0,
      openUpvalues := [], heap := [], printed := [] }
  let (vm, initId) := copyString vm "init".data
  let vm := { vm with initString := initId }
  let (vm, clockName) := copyString vm "clock".data
  let (heap, nid) := allocate vm.heap .oNative
  let vm := { vm with heap := heap }
  { vm with globals := (tableSet vm.globals clockName (.vObj nid)).1 }

/-- vm.c interpret: compile; on success wrap the script function in a
closure, push it, set up the initial frame, and run. -/
def interpret (source : List Char) (fuel : Nat) : InterpretResult × VMState :=
  match compile source with
  | (none, _) => (.INTERPRET_COMPILE_ERROR, initVM)
  | (some fobj, _) =>
    let vm := initVM
    let (vm, fval) := loadConst (funcCValue fobj) vm
    let vm := push vm fval
    let fid := asObjId fval
    let (heap, cid) := allocate vm.heap (.oClosure fid [])
    let vm := { vm with heap := heap }
    let (vm, _) := pop vm
    let vm := push vm (.vObj cid)
    match call vm cid 0 with
    | .ok vm => runLoop fuel vm
    | .err msg vm => (.INTERPRET_RUNTIME_ERROR msg, vm)

end VM

/-! ## The two Value representations at the bit level (value.h / value.c)

Doubles are their raw IEEE-754 binary64 bit patterns (a Nat below 2^64), so
the NaN behaviour of `==` is exact.  The tagged-union branch of value.h
keeps a type tag and payload; the NAN_BOXING branch packs everything into
one 64-bit word. -/

namespace ValueRep

def SIGN_BIT : Nat := 0x8000000000000000

def QNAN : Nat := 0x7ffc000000000000

def TAG_NIL : Nat := 1

def TAG_FALSE : Nat := 2

def TAG_TRUE : Nat := 3

/-- An IEEE-754 binary64 NaN: exponent all ones, mantissa nonzero. -/
def isNanBits (w : Nat) : Bool :=
  ((w >>> 52) &&& 0x7ff) = 0x7ff ∧ (w &&& 0xfffffffffffff) ≠ 0

/-- +0.0 or -0.0. -/
def isZeroBits (w : Nat) : Bool :=
  (w &&& 0x7fffffffffffffff) = 0

/-- The hardware `==` on two doubles given by bit patterns: false when either
is NaN; otherwise binary64 representations are unique except for the two
zeros, so equal iff same bits or both zeros. -/
def doubleEq (a b : Nat) : Bool :=
  if isNanBits a || isNanBits b then false
  else a = b || (isZeroBits a && isZeroBits b)

/-- The tagged-union Value (value.h without NAN_BOXING): ValueType tag plus
payload; the number payload is the double's bit pattern. -/
inductive ValueT where
  | VAL_BOOL (b : Bool)
  | VAL_NIL
  | VAL_NUMBER (bits : Nat)
  | VAL_OBJ (p : Nat)
  deriving DecidableEq

/-- value.c valuesEqual, tagged-union branch: different tags are unequal,
numbers compare as doubles, objects by pointer. -/
def valuesEqualTagged : ValueT → ValueT → Bool
  | .VAL_BOOL x, .VAL_BOOL y => x == y
  | .VAL_NIL, .VAL_NIL => true
  | .VAL_NUMBER x, .VAL_NUMBER y => doubleEq x y
  | .VAL_OBJ x, .VAL_OBJ y => x == y
  | _, _ => false

/-- NAN_BOXING IS_NUMBER. -/
def IS_NUMBER (v : Nat) : Bool := (v &&& QNAN) ≠ QNAN

/-- NAN_BOXING IS_OBJ. -/
def IS_OBJ (v : Nat) : Bool := (v &&& (QNAN ||| SIGN_BIT)) = (QNAN ||| SIGN_BIT)

def TRUE_VAL : Nat := QNAN ||| TAG_TRUE

def FALSE_VAL : Nat := QNAN ||| TAG_FALSE

def NIL_VAL : Nat := QNAN ||| TAG_NIL

/-- NAN_BOXING IS_BOOL. -/
def IS_BOOL (v : Nat) : Bool := (v ||| 1) = TRUE_VAL

def BOOL_VAL (b : Bool) : Nat := if b then TRUE_VAL else FALSE_VAL

/-- numToValue / NUMBER_VAL: the double's own bits. -/
def NUMBER_VAL (bits : Nat) : Nat := bits

/-- valueToNum / AS_NUMBER. -/
def AS_NUMBER (v : Nat) : Nat := v

/-- OBJ_VAL. -/
def OBJ_VAL (p : Nat) : Nat := SIGN_BIT ||| QNAN ||| p

/-- value.c valuesEqual, NAN_BOXING branch: two numbers compare as doubles
(so NaN ≠ NaN survives); everything else is word equality. -/
def valuesEqualNan (a b : Nat) : Bool :=
  if IS_NUMBER a && IS_NUMBER b then doubleEq (AS_NUMBER a) (AS_NUMBER b)
  else a == b

/-- The NaN-boxed word of a tagged value (the *_VAL constructors). -/
def encode : ValueT → Nat
  | .VAL_BOOL b => BOOL_VAL b
  | .VAL_NIL => NIL_VAL
  | .VAL_NUMBER bits => NUMBER_VAL bits
  | .VAL_OBJ p => OBJ_VAL p

/-- The values NaN boxing can represent: number bit patterns outside the
reserved quiet-NaN space (hardware arithmetic never produces one inside it),
and object pointers in the canonical low 48 bits of the address space. -/
def ValidT : ValueT → Prop
  | .VAL_NUMBER bits => (bits &&& QNAN) ≠ QNAN
  | .VAL_OBJ p => p < 2 ^ 48
  | _ => True

end ValueRep

/-! ## The mark-sweep collector over an explicit object graph (memory.c)

`roots` is the id list markRoots visits (stack slots, frame closures, open
upvalues, globals, compiler chain, the init string) and `children o` the ids
blackenObject traverses out of object o.  The claim under test holds the
root set and all object fields fixed between two collections, so both are
parameters; mark fuel is the loop-iteration bound, likewise fixed.  Sweep
clears surviving mark bits, so every collection starts all-white — the model
recomputes the mark set from scratch each run. -/

namespace GC

/-- The collector-visible heap: the all-objects list and the weak
string-intern table's keys. -/
structure GCHeap where
  objects : List Nat
  strings : List Nat
  deriving DecidableEq

/-- markObject for each id of a list (markRoots / blackenObject's child
loop): an already-marked id is skipped, a fresh one is marked and pushed on
the gray worklist. -/
def markList : List Nat → List Nat → List Nat → List Nat × List Nat
  | [], marked, gray => (marked, gray)
  | c :: cs, marked, gray =>
    if marked.contains c then markList cs marked gray
    else markList cs (marked ++ [c]) (gray ++ [c])

/-- traceReferences: pop a gray object, blacken it by marking its children,
until the worklist empties (fuel bounds the loop). -/
def traceReferences (children : Nat → List Nat) : Nat → List Nat → List Nat → List Nat
  | 0, marked, _ => marked
  | fuel + 1, marked, gray =>
    match gray with
    | [] => marked
    | o :: rest =>
      let (marked', gray') := markList (children o) marked rest
      traceReferences children fuel marked' gray'

/-- The mark phase (markRoots followed by traceReferences): the set of ids
whose mark bit is set when tracing finishes. -/
def gcMark (roots : List Nat) (children : Nat → List Nat) (fuel : Nat) : List Nat :=
  traceReferences children fuel (markList roots [] []).1 (markList roots [] []).2

/-- memory.c collectGarbage: mark the roots, trace, drop unmarked intern
entries (tableRemoveWhite), sweep (keep marked objects, unlink and free the
unmarked).  Returns the surviving heap and the list of freed objects. -/
def collectGarbage (roots : List Nat) (children : Nat → List Nat) (fuel : Nat)
    (h : GCHeap) : GCHeap × List Nat :=
  (⟨h.objects.filter (fun o => (gcMark roots children fuel).contains o),
    h.strings.filter (fun s => (gcMark roots children fuel).contains s)⟩,
   h.objects.filter (fun o => ! (gcMark roots children fuel).contains o))

end GC

/-! # Theorems

The remainder of the file settles the specification claims against the
embedding above. -/

/-! ## Shared list lemmas -/

theorem filter_self_idem {α : Type} (l : List α) (p : α → Bool) :
    (l.filter p).filter p = l.filter p := by
  induction l with
  | nil => rfl
  | cons a rest ih =>
    by_cases h : p a
    · simp [List.filter, h, ih]
    · simp [List.filter, h, ih]

theorem filter_not_of_filter {α : Type} (l : List α) (p : α → Bool) :
    (l.filter p).filter (fun a => ! p a) = [] := by
  induction l with
  | nil => rfl
  | cons a rest ih =>
    by_cases h : p a
    · simp [List.filter, h, ih]
    · simp [List.filter, h, ih]

/-! ## C9: a second garbage collection right after a first frees nothing

With the root set, every object's fields and the mark-loop bound unchanged
(the claim's premise: no intervening allocation or mutation), the mark phase
recomputes the same mark set, so the second sweep finds every surviving
object marked. -/

/-- Claim C9: running collectGarbage twice with an unchanged root set and
unchanged object graph frees no objects in the second run, and leaves the
all-objects list and the intern table exactly as the first run left them. -/
theorem C9_second_collection_frees_nothing (roots : List Nat)
    (children : Nat → List Nat) (fuel : Nat) (h : GC.GCHeap) :
    (GC.collectGarbage roots children fuel (GC.collectGarbage roots children fuel h).1).2 = []
    ∧ (GC.collectGarbage roots children fuel (GC.collectGarbage roots children fuel h).1).1 =
      (GC.collectGarbage roots children fuel h).1 := by
  unfold GC.collectGarbage
  refine ⟨filter_not_of_filter _ _, ?_⟩
  simp only [filter_self_idem]

/-! ## C2: the locals-per-function limit

compiler.c initCompiler claims locals slot 0 for the VM, so a function body
can declare at most 255 further locals: the 256th user declaration finds
localCount == UINT8_COUNT and errors.  The claim's "256 accepted / 257
rejected" is off by one. -/

/-- A compiler state as compile() makes it before any token is parsed: a
single TYPE_SCRIPT compiler whose slot 0 is claimed, inside one extra block
scope (locals are only tracked when scopeDepth > 0). -/
def freshFunctionState : GState :=
  beginScope (initCompiler
    ⟨⟨eofToken, eofToken, false, false⟩, [], [], []⟩ .TYPE_SCRIPT)

/-- n successive addLocal calls (the effect of n `var x;` declarations once
parseVariable reaches declareVariable's addLocal). -/
def applyAddLocal : Nat → GState → GState
  | 0, st => st
  | n + 1, st => addLocal (applyAddLocal n st) ⟨.TOKEN_IDENTIFIER, ['v'], 1⟩

theorem cur_setCur (st : GState) (c : CompilerF) : (st.setCur c).cur = c := by
  simp [GState.setCur, GState.cur]

theorem parser_setCur (st : GState) (c : CompilerF) : (st.setCur c).parser = st.parser := rfl

theorem messages_setCur (st : GState) (c : CompilerF) : (st.setCur c).messages = st.messages := rfl

/-- While fewer than 256 local slots are used, each addLocal grows the
array by one and reports nothing: after n ≤ 255 declarations from the fresh
function state, n+1 slots are used (slot 0 included) and no diagnostic has
been reported. -/
theorem applyAddLocal_spec (n : Nat) (h : n ≤ 255) :
    (applyAddLocal n freshFunctionState).cur.locals.length = n + 1
    ∧ (applyAddLocal n freshFunctionState).parser = freshFunctionState.parser
    ∧ (applyAddLocal n freshFunctionState).messages = [] := by
  induction n with
  | zero => exact ⟨by decide, rfl, rfl⟩
  | succ m ih =>
    obtain ⟨hlen, hparser, hmsgs⟩ := ih (Nat.le_trans (Nat.le_succ m) h)
    have hne : (applyAddLocal m freshFunctionState).cur.locals.length ≠ 256 := by
      rw [hlen]; omega
    have hstep : applyAddLocal (m + 1) freshFunctionState =
        (applyAddLocal m freshFunctionState).setCur
          { (applyAddLocal m freshFunctionState).cur with
              locals := (applyAddLocal m freshFunctionState).cur.locals ++
                [⟨⟨.TOKEN_IDENTIFIER, ['v'], 1⟩, -1, false⟩] } := by
      show addLocal (applyAddLocal m freshFunctionState) _ = _
      unfold addLocal
      rw [if_neg hne]
    rw [hstep, cur_setCur, parser_setCur, messages_setCur]
    refine ⟨?_, hparser, hmsgs⟩
    simp [hlen]

/-- The identifier token used for the repeated declarations. -/
def vTok : Token := ⟨.TOKEN_IDENTIFIER, ['v'], 1⟩

/-- Counterexample to claim C2: the claim says a 256th local declaration in
a function is still accepted (only the 257th is rejected); in fact after 255
successful declarations the next (256th) addLocal call already reports the
too-many-locals compile error. -/
theorem C2_counterexample :
    (applyAddLocal 255 freshFunctionState).parser.hadError = false ∧
    (addLocal (applyAddLocal 255 freshFunctionState) vTok).parser.hadError = true := by
  obtain ⟨hlen, hparser, hmsgs⟩ := applyAddLocal_spec 255 (by omega)
  refine ⟨by rw [hparser]; rfl, ?_⟩
  unfold addLocal
  rw [if_pos (by rw [hlen])]
  unfold error errorAt
  rw [if_neg (by rw [hparser]; decide)]

/-- Claim C2 (amended): initCompiler reserves locals slot 0, so a function
accepts up to 255 user-declared locals — after 255 addLocal calls no
diagnostic has been reported and all 256 slots are in use — and the 256th
declaration is rejected with the compile error "Too many local variables in
function (CTok supports upto 256 variables in a block).".  In general,
addLocal grows the locals array while fewer than 256 slots are used and
reports that error exactly when all 256 are. -/
theorem C2_locals_limit :
    ((initCompiler ⟨⟨eofToken, eofToken, false, false⟩, [], [], []⟩
        .TYPE_SCRIPT).cur.locals.length = 1)
    ∧ (∀ st name, st.cur.locals.length = 256 →
        addLocal st name =
          error st "Too many local variables in function (CTok supports upto 256 variables in a block).")
    ∧ (∀ st name, st.cur.locals.length ≠ 256 →
        addLocal st name =
          st.setCur { st.cur with locals := st.cur.locals ++ [⟨name, -1, false⟩] })
    ∧ (applyAddLocal 255 freshFunctionState).parser.hadError = false
    ∧ (applyAddLocal 255 freshFunctionState).cur.locals.length = 256
    ∧ (addLocal (applyAddLocal 255 freshFunctionState) vTok).messages =
        ["Too many local variables in function (CTok supports upto 256 variables in a block)."] := by
  obtain ⟨hlen, hparser, hmsgs⟩ := applyAddLocal_spec 255 (by omega)
  refine ⟨by decide, ?_, ?_, by rw [hparser]; rfl, hlen, ?_⟩
  · intro st name h
    unfold addLocal
    rw [if_pos h]
  · intro st name h
    unfold addLocal
    rw [if_neg h]
  · unfold addLocal
    rw [if_pos (by rw [hlen])]
    unfold error errorAt
    rw [if_neg (by rw [hparser]; decide)]
    show (applyAddLocal 255 freshFunctionState).messages ++ _ = _
    rw [hmsgs]
    rfl

/-! ## C3: duplicate variable names in one scope

declareVariable walks the locals from the top, stops at a defined local of
an enclosing scope, and reports every same-name local it passes — with the
message "Already variable with this name in this scope." (the specification
quotes it as "Already a variable with this name in this scope", which is not
the string the code prints). -/

theorem errorAt_hadError_mono (st : GState) (msg : String)
    (h : st.parser.hadError = true) : (errorAt st msg).parser.hadError = true := by
  unfold errorAt
  split
  · exact h
  · rfl

theorem errorAt_messages_mono (st : GState) (msg m : String)
    (h : m ∈ st.messages) : m ∈ (errorAt st msg).messages := by
  unfold errorAt
  split
  · exact h
  · exact List.mem_append_left _ h

theorem declareVariableLoop_hadError_mono (ls : List Local) (name : Token) (sd : Int)
    (st : GState) (h : st.parser.hadError = true) :
    (declareVariableLoop ls name sd st).parser.hadError = true := by
  induction ls generalizing st with
  | nil => exact h
  | cons l rest ih =>
    unfold declareVariableLoop
    split
    · exact h
    · split
      · exact ih _ (errorAt_hadError_mono _ _ h)
      · exact ih _ h

theorem declareVariableLoop_messages_mono (ls : List Local) (name : Token) (sd : Int)
    (st : GState) (m : String) (h : m ∈ st.messages) :
    m ∈ (declareVariableLoop ls name sd st).messages := by
  induction ls generalizing st with
  | nil => exact h
  | cons l rest ih =>
    unfold declareVariableLoop
    split
    · exact h
    · split
      · exact ih _ (errorAt_messages_mono _ _ _ h)
      · exact ih _ h

theorem error_fresh_reports (st : GState) (msg : String)
    (hpanic : st.parser.panicMode = false) :
    (error st msg).parser.hadError = true ∧ msg ∈ (error st msg).messages := by
  unfold error errorAt
  rw [if_neg (by rw [hpanic]; decide)]
  exact ⟨rfl, List.mem_append_right _ (List.mem_singleton.mpr rfl)⟩

/-- If the locals walked by declareVariableLoop hold a same-named entry
before (or at) the first defined outer-scope local, the duplicate error is
reported. -/
theorem declareVariableLoop_dup (pre : List Local) (l : Local) (post : List Local)
    (name : Token) (sd : Int) (st : GState)
    (hpanic : st.parser.panicMode = false)
    (hmatch : identifiersEqual name l.name = true)
    (hnb : ∀ l' ∈ pre ++ [l], ¬(l'.depth ≠ -1 ∧ l'.depth < sd)) :
    (declareVariableLoop (pre ++ l :: post) name sd st).parser.hadError = true ∧
    "Already variable with this name in this scope." ∈
      (declareVariableLoop (pre ++ l :: post) name sd st).messages := by
  induction pre generalizing st with
  | nil =>
    have hl := hnb l (by simp)
    simp only [List.nil_append]
    unfold declareVariableLoop
    rw [if_neg hl, if_pos hmatch]
    obtain ⟨he, hm⟩ := error_fresh_reports st "Already variable with this name in this scope." hpanic
    exact ⟨declareVariableLoop_hadError_mono _ _ _ _ he,
           declareVariableLoop_messages_mono _ _ _ _ _ hm⟩
  | cons p pre' ih =>
    have hp := hnb p (by simp)
    simp only [List.cons_append]
    unfold declareVariableLoop
    rw [if_neg hp]
    split
    · -- p itself already collides with the name: the error fires here
      obtain ⟨he, hm⟩ := error_fresh_reports st "Already variable with this name in this scope." hpanic
      exact ⟨declareVariableLoop_hadError_mono _ _ _ _ he,
             declareVariableLoop_messages_mono _ _ _ _ _ hm⟩
    · exact ih st hpanic (fun l' hl' => hnb l' (List.mem_cons_of_mem _ hl'))

theorem addLocal_hadError_mono (st : GState) (name : Token)
    (h : st.parser.hadError = true) : (addLocal st name).parser.hadError = true := by
  unfold addLocal
  split
  · exact errorAt_hadError_mono _ _ h
  · rw [parser_setCur]; exact h

theorem addLocal_messages_mono (st : GState) (name : Token) (m : String)
    (h : m ∈ st.messages) : m ∈ (addLocal st name).messages := by
  unfold addLocal
  split
  · exact errorAt_messages_mono _ _ _ h
  · rw [messages_setCur]; exact h

/-- A compiler state inside one open block that already holds a local named
`v` at the current depth, with the parser about to declare `v` again. -/
def dupDeclState : GState :=
  ⟨⟨eofToken, vTok, false, false⟩,
   [⟨newFunction, .TYPE_SCRIPT,
     [⟨⟨.TOKEN_IDENTIFIER, [], 0⟩, 0, false⟩, ⟨vTok, 1, false⟩], [], 1⟩],
   [], []⟩

/-- compile() returns null exactly when a diagnostic was reported. -/
theorem compileFull_none_iff (source : List Char) (fuel : Nat) :
    ((compileFull source fuel).1 = none) ↔
    ((compileFull source fuel).2.parser.hadError = true) := by
  unfold compileFull
  dsimp only
  split
  · next h => simp [h]
  · next h => simp [h]

/-- Counterexample to claim C3: the compile error the code reports for a
duplicate declaration in one scope is "Already variable with this name in
this scope." — the message quoted by the claim ("Already a variable with
this name in this scope") is not reported. -/
theorem C3_counterexample :
    (compile "{ var a; var a; }".data).2.messages =
      ["Already variable with this name in this scope."]
    ∧ "Already a variable with this name in this scope" ∉
        (compile "{ var a; var a; }".data).2.messages
    ∧ "Already a variable with this name in this scope." ∉
        (compile "{ var a; var a; }".data).2.messages := by
  refine ⟨by decide, by decide, by decide⟩

/-- Claim C3 (amended): a program declaring two same-named variables in one
local scope is rejected — compile(source) returns null — and the compile
error reported is exactly "Already variable with this name in this scope."
(the spec's quote inserts an extra "a").  In general declareVariable reports
that error whenever a same-named local precedes the first defined
outer-scope local in the walk, and compile returns null exactly when some
diagnostic was reported. -/
theorem C3_duplicate_name :
    (∀ (st : GState) (pre : List Local) (l : Local) (post : List Local),
      st.cur.scopeDepth ≠ 0 →
      st.parser.panicMode = false →
      st.cur.locals.reverse = pre ++ l :: post →
      identifiersEqual st.parser.previous l.name = true →
      (∀ l' ∈ pre ++ [l], ¬(l'.depth ≠ -1 ∧ l'.depth < (st.cur.scopeDepth : Int))) →
      (declareVariable st).parser.hadError = true ∧
      "Already variable with this name in this scope." ∈ (declareVariable st).messages)
    ∧ (∀ source fuel, ((compileFull source fuel).1 = none) ↔
        ((compileFull source fuel).2.parser.hadError = true))
    ∧ (compile "{ var a; var a; }".data).1.isNone = true
    ∧ (compile "{ var a; var a; }".data).2.messages =
        ["Already variable with this name in this scope."] := by
  refine ⟨?_, compileFull_none_iff, by decide, by decide⟩
  intro st pre l post hd hpanic hsplit hmatch hnb
  unfold declareVariable
  rw [if_neg hd]
  rw [hsplit]
  obtain ⟨he, hm⟩ := declareVariableLoop_dup pre l post st.parser.previous
    (st.cur.scopeDepth : Int) st hpanic hmatch hnb
  constructor
  · exact addLocal_hadError_mono _ _ he
  · exact addLocal_messages_mono _ _ _ hm

/-- Witness for C3_duplicate_name: the general clauses applied at a concrete
compiler state holding a same-named local in the open scope. -/
theorem C3_duplicate_name_witness :
    (declareVariable dupDeclState).parser.hadError = true ∧
    "Already variable with this name in this scope." ∈ (declareVariable dupDeclState).messages :=
  (C3_duplicate_name.1 dupDeclState [] ⟨vTok, 1, false⟩ [⟨⟨.TOKEN_IDENTIFIER, [], 0⟩, 0, false⟩]
    (by decide) (by decide) rfl (by decide) (by decide)).imp id id

/-! ## C1: class declarations

In this repository classDeclaration parses `class Name` followed by an empty
body only: neither method declarations nor a `< Superclass` clause are
accepted, so the spec's inheritance program never compiles.  The VM's
OP_INHERIT handler does copy the superclass's method table, but no compiled
program reaches it. -/

/-- The state OP_INHERIT leaves behind before the final pop: the subclass
object rewritten with a merged method table. -/
def inheritedVM (vm : VM.VMState) (subId subName : Nat)
    (methods : List (Nat × VM.RtValue)) : VM.VMState :=
  { vm with heap := VM.heapSet vm.heap subId (.oClass subName methods) }

/-- Counterexample to claim C1: the claim's program is rejected by the
compiler (methods and `< Superclass` clauses are not parsed), so
interpreting it yields a compile error rather than printing "hi". -/
theorem C1_counterexample :
    (VM.interpret "class A \x7b greet() \x7b print \"hi\"; \x7d \x7d class B < A \x7b\x7d B().greet();".data 3000).1
      = .INTERPRET_COMPILE_ERROR
    ∧ (VM.interpret "class A \x7b greet() \x7b print \"hi\"; \x7d \x7d class B < A \x7b\x7d B().greet();".data 3000).2.printed = []
    ∧ (compile "class A \x7b greet() \x7b print \"hi\"; \x7d \x7d class B < A \x7b\x7d B().greet();".data).1.isNone = true := by
  refine ⟨by decide, by decide, by decide⟩

/-- Claim C1 (amended): a class declaration compiles only with an empty body
— `class A \x7b\x7d` is accepted, while the claim's program (methods and a
`< A` superclass clause) is rejected with "Expect '\x7b' before class
body." / "Expect '\x7d' after class body." diagnostics and never reaches the
VM.  The OP_INHERIT handler itself does copy the superclass's method table
into the subclass and pop the subclass, as the spec describes, but it is
dead code for compiled programs. -/
theorem C1_class_declarations :
    (compile "class A \x7b\x7d print 1;".data).1.isSome = true
    ∧ (compile "class A \x7b greet() \x7b print \"hi\"; \x7d \x7d class B < A \x7b\x7d B().greet();".data).1.isNone = true
    ∧ (compile "class A \x7b greet() \x7b print \"hi\"; \x7d \x7d class B < A \x7b\x7d B().greet();".data).2.messages
        = ["Expect '\x7d' after class body.", "Expect expression.", "Expect '\x7b' before class body."]
    ∧ (∀ (vm : VM.VMState) (sid subId subName : Nat)
         (sm subMethods : List (Nat × VM.RtValue)) (sn : Nat),
        VM.peek vm 1 = .vObj sid →
        VM.heapGet vm.heap sid = some (.oClass sn sm) →
        VM.peek vm 0 = .vObj subId →
        VM.heapGet vm.heap subId = some (.oClass subName subMethods) →
        VM.opInherit vm = .cont (VM.pop (inheritedVM vm subId subName
          (VM.tableAddAll (VM.classMethods vm sid) subMethods))).1) := by
  refine ⟨by decide, by decide, by decide, ?_⟩
  intro vm sid subId subName sm subMethods sn h1 h2 h0 hsub
  have hcls : VM.isClassV vm (VM.RtValue.vObj sid) = true := by
    simp [VM.isClassV, h2]
  unfold VM.opInherit
  dsimp only
  rw [h1, h0]
  rw [if_neg (not_not_intro hcls)]
  dsimp only [VM.asObjId]
  rw [hsub]
  rfl

/-- A heap holding a superclass (id 0, one method entry) and a subclass
(id 1, empty method table), with the two classes on the stack as OP_INHERIT
expects them. -/
def inheritVM : VM.VMState :=
  ⟨[], [.vObj 0, .vObj 1], [], [], 0, [],
   [.oClass 7 [(3, .vNil)], .oClass 8 []], []⟩

/-- Witness for C1_class_declarations: the OP_INHERIT clause applied to a
concrete two-class heap — the subclass ends up with the superclass's method
table and is popped. -/
theorem C1_class_declarations_witness :
    VM.opInherit inheritVM = .cont (VM.pop (inheritedVM inheritVM 1 8
      (VM.tableAddAll (VM.classMethods inheritVM 0) []))).1 :=
  C1_class_declarations.2.2.2 inheritVM 0 1 8 [(3, .vNil)] [] 7 rfl rfl rfl rfl

/-! ## C4: the call-frame depth limit (FRAMES_MAX = 64) -/

/-- The state vm.c call leaves on success: a new frame pushed, with slots
pointing at stackTop - argCount - 1. -/
def framePushed (vm : VM.VMState) (closure argCount : Nat) : VM.VMState :=
  { vm with frames := ⟨closure, 0, vm.stack.length - argCount - 1⟩ :: vm.frames }

/-- A VM whose frame stack is n frames deep (the heap is empty, so closure 0
has arity 0). -/
def deepVM (n : Nat) : VM.VMState :=
  ⟨List.replicate n ⟨0, 0, 0⟩, [], [], [], 0, [], [], []⟩

/-- Claim C4: with a matching arity, a call made at depth 63 is accepted and
yields depth exactly 64, while a call made at depth 64 — which would make
the depth 65 — reports the runtime error "Stack overflow."; concretely, the
unbounded recursion `fun f()\x7bf();\x7d f();` interprets to
INTERPRET_RUNTIME_ERROR "Stack overflow.". -/
theorem C4_frame_depth_limit :
    (∀ (vm : VM.VMState) (closure argCount : Nat),
      argCount = VM.closureArity vm closure →
      vm.frames.length = VM.FRAMES_MAX - 1 →
      VM.call vm closure argCount = .ok (framePushed vm closure argCount) ∧
      (framePushed vm closure argCount).frames.length = VM.FRAMES_MAX)
    ∧ (∀ (vm : VM.VMState) (closure argCount : Nat),
      argCount = VM.closureArity vm closure →
      vm.frames.length = VM.FRAMES_MAX →
      VM.call vm closure argCount = .err "Stack overflow." (VM.runtimeError vm))
    ∧ (VM.interpret "fun f()\x7bf();\x7d f();".data 2000).1
        = .INTERPRET_RUNTIME_ERROR "Stack overflow." := by
  refine ⟨?_, ?_, by decide⟩
  · intro vm closure argCount harg hlen
    unfold VM.call
    rw [if_neg (not_not_intro harg)]
    rw [if_neg (by rw [hlen]; decide)]
    exact ⟨rfl, by simp [framePushed, hlen, VM.FRAMES_MAX]⟩
  · intro vm closure argCount harg hlen
    unfold VM.call
    rw [if_neg (not_not_intro harg)]
    rw [if_pos hlen]

/-- Witness for C4_frame_depth_limit: the two general clauses applied at
concrete VMs 63 and 64 frames deep. -/
theorem C4_frame_depth_limit_witness :
    (VM.call (deepVM 63) 0 0 = .ok (framePushed (deepVM 63) 0 0) ∧
     (framePushed (deepVM 63) 0 0).frames.length = VM.FRAMES_MAX)
    ∧ VM.call (deepVM 64) 0 0 = .err "Stack overflow." (VM.runtimeError (deepVM 64)) :=
  ⟨C4_frame_depth_limit.1 (deepVM 63) 0 0 (by decide) (by decide),
   C4_frame_depth_limit.2.1 (deepVM 64) 0 0 (by decide) (by decide)⟩

/-! ## C5: OP_SET_GLOBAL on undefined and defined names -/

theorem tableSet_isNew_of_none (t : List (Nat × VM.RtValue)) (key : Nat) (v : VM.RtValue)
    (h : VM.tableGet t key = none) : (VM.tableSet t key v).2 = true := by
  induction t with
  | nil => rfl
  | cons kv rest ih =>
    unfold VM.tableGet at h
    unfold VM.tableSet
    by_cases hk : kv.1 = key
    · rw [if_pos hk] at h; exact absurd h (by simp)
    · rw [if_neg hk] at h
      dsimp only
      rw [if_neg hk]
      exact ih h

theorem tableDelete_tableSet_of_none (t : List (Nat × VM.RtValue)) (key : Nat) (v : VM.RtValue)
    (h : VM.tableGet t key = none) : VM.tableDelete (VM.tableSet t key v).1 key = t := by
  induction t with
  | nil => simp [VM.tableSet, VM.tableDelete]
  | cons kv rest ih =>
    unfold VM.tableGet at h
    unfold VM.tableSet
    by_cases hk : kv.1 = key
    · rw [if_pos hk] at h; exact absurd h (by simp)
    · rw [if_neg hk] at h
      dsimp only
      rw [if_neg hk]
      unfold VM.tableDelete
      rw [if_neg hk]
      rw [ih h]

theorem tableSet_not_new_of_some (t : List (Nat × VM.RtValue)) (key : Nat)
    (v w : VM.RtValue) (h : VM.tableGet t key = some w) : (VM.tableSet t key v).2 = false := by
  induction t with
  | nil => exact absurd h (by simp [VM.tableGet])
  | cons kv rest ih =>
    unfold VM.tableGet at h
    unfold VM.tableSet
    by_cases hk : kv.1 = key
    · rw [if_pos hk] at h
      dsimp only
      rw [if_pos hk]
    · rw [if_neg hk] at h
      dsimp only
      rw [if_neg hk]
      exact ih h

theorem tableGet_tableSet_self (t : List (Nat × VM.RtValue)) (key : Nat) (v : VM.RtValue) :
    VM.tableGet (VM.tableSet t key v).1 key = some v := by
  induction t with
  | nil => simp [VM.tableSet, VM.tableGet]
  | cons kv rest ih =>
    unfold VM.tableSet
    by_cases hk : kv.1 = key
    · rw [if_pos hk]
      dsimp only
      unfold VM.tableGet
      rw [if_pos hk]
    · rw [if_neg hk]
      dsimp only
      unfold VM.tableGet
      rw [if_neg hk]
      exact ih

def withGlobals (vm : VM.VMState) (g : List (Nat × VM.RtValue)) : VM.VMState :=
  { vm with globals := g }

/-- Claim C5: executing OP_SET_GLOBAL on a name absent from the globals map
halts with "Undefined variable '<name>'." and hands runtimeError a state
whose globals are exactly the original map (the transient entry is deleted
again); on a present name it stores the new value under the name and leaves
the stack — in particular the assigned value — untouched.  Concretely,
`var a = 1; b = 2;` is a runtime error while `var a = 1; a = 2; print a;`
prints 2. -/
theorem C5_set_global :
    (∀ (vm : VM.VMState) (name : Nat),
      VM.tableGet vm.globals name = none →
      VM.opSetGlobal vm name = .halt (.INTERPRET_RUNTIME_ERROR
        ("Undefined variable '" ++ String.mk (VM.stringChars vm.heap name) ++ "'."))
        (VM.runtimeError vm))
    ∧ (∀ (vm : VM.VMState) (name : Nat) (w : VM.RtValue),
      VM.tableGet vm.globals name = some w →
      VM.opSetGlobal vm name
          = .cont (withGlobals vm (VM.tableSet vm.globals name (VM.peek vm 0)).1) ∧
      VM.tableGet (VM.tableSet vm.globals name (VM.peek vm 0)).1 name
          = some (VM.peek vm 0) ∧
      (withGlobals vm (VM.tableSet vm.globals name (VM.peek vm 0)).1).stack = vm.stack)
    ∧ (VM.interpret "var a = 1; b = 2;".data 500).1
        = .INTERPRET_RUNTIME_ERROR "Undefined variable 'b'."
    ∧ (VM.interpret "var a = 1; a = 2; print a;".data 500).1 = .INTERPRET_OK
    ∧ (VM.interpret "var a = 1; a = 2; print a;".data 500).2.printed = [.vNumber 2] := by
  refine ⟨?_, ?_, by decide, by decide, by decide⟩
  · intro vm name h
    have h2 := tableSet_isNew_of_none vm.globals name (VM.peek vm 0) h
    have h3 := tableDelete_tableSet_of_none vm.globals name (VM.peek vm 0) h
    unfold VM.opSetGlobal
    rcases hset : VM.tableSet vm.globals name (VM.peek vm 0) with ⟨g1, isNew⟩
    rw [hset] at h2 h3
    dsimp only at h2 h3 ⊢
    rw [if_pos h2]
    rw [h3]
  · intro vm name w h
    have h2 := tableSet_not_new_of_some vm.globals name (VM.peek vm 0) w h
    unfold VM.opSetGlobal
    rcases hset : VM.tableSet vm.globals name (VM.peek vm 0) with ⟨g1, isNew⟩
    rw [hset] at h2
    dsimp only at h2 ⊢
    rw [if_neg (by rw [h2]; exact Bool.false_ne_true)]
    refine ⟨rfl, ?_, rfl⟩
    have := tableGet_tableSet_self vm.globals name (VM.peek vm 0)
    rw [hset] at this
    exact this

/-- A VM whose globals hold key 5 and whose heap names key 0 "b". -/
def globalsVM : VM.VMState :=
  ⟨[], [.vNumber 3], [(5, .vNumber 1)], [], 0, [], [.oString ['b']], []⟩

/-- Witness for C5_set_global: the two general clauses applied at a concrete
VM — setting absent key 0 raises "Undefined variable 'b'." with the globals
restored, and setting present key 5 stores the top of stack without popping
it. -/
theorem C5_set_global_witness :
    VM.opSetGlobal globalsVM 0 = .halt (.INTERPRET_RUNTIME_ERROR
        ("Undefined variable '" ++ String.mk (VM.stringChars globalsVM.heap 0) ++ "'."))
        (VM.runtimeError globalsVM)
    ∧ (VM.opSetGlobal globalsVM 5
        = .cont (withGlobals globalsVM (VM.tableSet globalsVM.globals 5 (VM.peek globalsVM 0)).1) ∧
       VM.tableGet (VM.tableSet globalsVM.globals 5 (VM.peek globalsVM 0)).1 5
        = some (VM.peek globalsVM 0) ∧
       (withGlobals globalsVM (VM.tableSet globalsVM.globals 5 (VM.peek globalsVM 0)).1).stack
        = globalsVM.stack) :=
  ⟨C5_set_global.1 globalsVM 0 (by decide),
   C5_set_global.2.1 globalsVM 5 (.vNumber 1) (by decide)⟩

/-! ## C6: OP_ADD on numbers, strings, and mismatched operands -/

theorem getD_concat2_last (s : List VM.RtValue) (x y d : VM.RtValue) :
    (s ++ [x, y]).getD (s.length + 1) d = y := by
  induction s with
  | nil => rfl
  | cons hd tl ih => simpa using ih

def withStack (vm : VM.VMState) (st : List VM.RtValue) : VM.VMState :=
  { vm with stack := st }

theorem peek0_concat2 (vm : VM.VMState) (s : List VM.RtValue) (x y : VM.RtValue)
    (h : vm.stack = s ++ [x, y]) : VM.peek vm 0 = y := by
  unfold VM.peek
  rw [h]
  have hn : (s ++ [x, y]).length - 1 - 0 = s.length + 1 := by simp
  rw [hn]
  exact getD_concat2_last s x y _

theorem getD_concat2_first (s : List VM.RtValue) (x y d : VM.RtValue) :
    (s ++ [x, y]).getD s.length d = x := by
  induction s with
  | nil => rfl
  | cons hd tl ih => simpa using ih

theorem peek1_concat2 (vm : VM.VMState) (s : List VM.RtValue) (x y : VM.RtValue)
    (h : vm.stack = s ++ [x, y]) : VM.peek vm 1 = x := by
  unfold VM.peek
  rw [h]
  have hn : (s ++ [x, y]).length - 1 - 1 = s.length := by simp
  rw [hn]
  exact getD_concat2_first s x y _

theorem pop_concat (vm : VM.VMState) (s : List VM.RtValue) (y : VM.RtValue)
    (h : vm.stack = s ++ [y]) : VM.pop vm = (withStack vm s, y) := by
  unfold VM.pop withStack
  rw [h]
  rw [List.dropLast_concat, List.getLastD_concat]

/-- Claim C6: OP_ADD concatenates two strings, adds two numbers (popping
both operands and pushing the sum), and on any other operand pair halts with
the runtime error "Operands must be two numbers or two strings."
Concretely, `var a; a = 1 + "x";` raises exactly that runtime error, and the
concatenation `"a" + "b"` in `var a = "ab"; print "a" + "b";` prints the
very object (id 4) the interned string "ab" already occupies — interning
makes the concatenation reuse it. -/
theorem C6_op_add :
    (∀ (vm : VM.VMState),
      VM.isStringV vm (VM.peek vm 0) = true → VM.isStringV vm (VM.peek vm 1) = true →
      VM.opAdd vm = .cont (VM.concatenate vm))
    ∧ (∀ (vm : VM.VMState) (s : List VM.RtValue) (a b : ℚ),
      vm.stack = s ++ [.vNumber a, .vNumber b] →
      VM.opAdd vm = .cont (withStack vm (s ++ [.vNumber (a + b)])))
    ∧ (∀ (vm : VM.VMState),
      ¬(VM.isStringV vm (VM.peek vm 0) = true ∧ VM.isStringV vm (VM.peek vm 1) = true) →
      ¬(VM.isNumberV (VM.peek vm 0) = true ∧ VM.isNumberV (VM.peek vm 1) = true) →
      VM.opAdd vm = .halt
        (.INTERPRET_RUNTIME_ERROR "Operands must be two numbers or two strings.")
        (VM.runtimeError vm))
    ∧ (VM.interpret "var a; a = 1 + \"x\";".data 500).1
        = .INTERPRET_RUNTIME_ERROR "Operands must be two numbers or two strings."
    ∧ (VM.interpret "var a = \"ab\"; print \"a\" + \"b\";".data 500).1 = .INTERPRET_OK
    ∧ (VM.interpret "var a = \"ab\"; print \"a\" + \"b\";".data 500).2.printed = [.vObj 4]
    ∧ VM.heapGet (VM.interpret "var a = \"ab\"; print \"a\" + \"b\";".data 500).2.heap 4
        = some (.oString ['a', 'b'])
    ∧ VM.tableGet (VM.interpret "var a = \"ab\"; print \"a\" + \"b\";".data 500).2.globals 3
        = some (.vObj 4)
    ∧ VM.stringChars (VM.interpret "var a = \"ab\"; print \"a\" + \"b\";".data 500).2.heap 3
        = ['a'] := by
  refine ⟨?_, ?_, ?_, by decide, by decide, by decide, by decide, by decide, by decide⟩
  · intro vm h0 h1
    unfold VM.opAdd
    rw [if_pos ⟨h0, h1⟩]
  · intro vm s a b h
    have hp0 := peek0_concat2 vm s (.vNumber a) (.vNumber b) h
    have hp1 := peek1_concat2 vm s (.vNumber a) (.vNumber b) h
    have hpop1 : VM.pop vm = (withStack vm (s ++ [.vNumber a]), .vNumber b) :=
      pop_concat vm (s ++ [.vNumber a]) (.vNumber b) (by rw [h]; simp)
    have hpop2 : VM.pop (withStack vm (s ++ [.vNumber a])) = (withStack vm s, .vNumber a) :=
      pop_concat _ s (.vNumber a) rfl
    unfold VM.opAdd
    rw [hp0, hp1]
    rw [if_neg (fun hc => Bool.noConfusion hc.1)]
    rw [if_pos ⟨rfl, rfl⟩]
    rw [hpop1]
    dsimp only
    rw [hpop2]
    rfl
  · intro vm h0 h1
    unfold VM.opAdd
    rw [if_neg h0, if_neg h1]

/-- A VM with a boolean and a number on top of the stack (no legal ADD
pairing). -/
def addMismatchVM : VM.VMState :=
  ⟨[], [.vBool true, .vNumber 1], [], [], 0, [], [], []⟩

/-- A VM with the numbers 2 and 3 on top of the stack. -/
def addNumbersVM : VM.VMState :=
  ⟨[], [.vNil, .vNumber 2, .vNumber 3], [], [], 0, [], [], []⟩

/-- Witness for C6_op_add: the number clause applied at a stack holding 2
and 3 (the sum 5 replaces them), and the mismatch clause at a boolean/number
pair. -/
theorem C6_op_add_witness :
    VM.opAdd addNumbersVM = .cont (withStack addNumbersVM ([.vNil] ++ [.vNumber (2 + 3)]))
    ∧ VM.opAdd addMismatchVM = .halt
        (.INTERPRET_RUNTIME_ERROR "Operands must be two numbers or two strings.")
        (VM.runtimeError addMismatchVM) :=
  ⟨C6_op_add.2.1 addNumbersVM [.vNil] 2 3 rfl,
   C6_op_add.2.2.1 addMismatchVM (by decide) (by decide)⟩

/-! ## C8: the open-upvalue list stays sorted by descending stack slot -/

/-- Descending slot order on an open-upvalue list, as vm.c keeps it. -/
def UvSorted (heap : List VM.HObj) (l : List Nat) : Prop :=
  l.Pairwise (fun i j => VM.uvSlotOf heap i > VM.uvSlotOf heap j)

instance (heap : List VM.HObj) (l : List Nat) : Decidable (UvSorted heap l) :=
  inferInstanceAs (Decidable (l.Pairwise _))

theorem captureGo_reuse (heap : List VM.HObj) (localSlot newId : Nat) (l : List Nat)
    (hsort : l.Pairwise (fun i j => VM.uvSlotOf heap i > VM.uvSlotOf heap j))
    (hmem : ∃ id ∈ l, VM.uvSlotOf heap id = localSlot) :
    (VM.captureGo heap localSlot newId l).1 = l ∧
    (VM.captureGo heap localSlot newId l).2.2 = false ∧
    (VM.captureGo heap localSlot newId l).2.1 ∈ l ∧
    VM.uvSlotOf heap (VM.captureGo heap localSlot newId l).2.1 = localSlot := by
  induction l with
  | nil => obtain ⟨id, hid, _⟩ := hmem; exact absurd hid (List.not_mem_nil id)
  | cons id rest ih =>
    obtain ⟨hhead, htail⟩ := List.pairwise_cons.mp hsort
    by_cases h1 : VM.uvSlotOf heap id > localSlot
    · have hmem' : ∃ i ∈ rest, VM.uvSlotOf heap i = localSlot := by
        obtain ⟨i, hi, hs⟩ := hmem
        rcases List.mem_cons.mp hi with h | h
        · subst h; omega
        · exact ⟨i, h, hs⟩
      obtain ⟨hl, hc, hm, hs⟩ := ih htail hmem'
      rcases hrec : VM.captureGo heap localSlot newId rest with ⟨l', r', c'⟩
      rw [hrec] at hl hc hm hs
      dsimp only at hl hc hm hs
      unfold VM.captureGo
      rw [if_pos h1, hrec]
      dsimp only
      exact ⟨by rw [hl], hc, List.mem_cons_of_mem _ hm, hs⟩
    · by_cases h2 : VM.uvSlotOf heap id = localSlot
      · unfold VM.captureGo
        rw [if_neg h1, if_pos h2]
        exact ⟨rfl, rfl, List.mem_cons_self _ _, h2⟩
      · exfalso
        obtain ⟨i, hi, hs⟩ := hmem
        rcases List.mem_cons.mp hi with h | h
        · subst h; exact h2 hs
        · have := hhead i h; omega

theorem captureGo_splice (heap : List VM.HObj) (localSlot newId : Nat) (l : List Nat)
    (hsort : l.Pairwise (fun i j => VM.uvSlotOf heap i > VM.uvSlotOf heap j))
    (hnone : ∀ id ∈ l, VM.uvSlotOf heap id ≠ localSlot) :
    ∃ pre post, l = pre ++ post ∧
      VM.captureGo heap localSlot newId l = (pre ++ newId :: post, newId, true) ∧
      (∀ id ∈ pre, VM.uvSlotOf heap id > localSlot) ∧
      (∀ id ∈ post, VM.uvSlotOf heap id < localSlot) := by
  induction l with
  | nil =>
    exact ⟨[], [], rfl, rfl, fun id h => absurd h (List.not_mem_nil id),
           fun id h => absurd h (List.not_mem_nil id)⟩
  | cons id rest ih =>
    obtain ⟨hhead, htail⟩ := List.pairwise_cons.mp hsort
    by_cases h1 : VM.uvSlotOf heap id > localSlot
    · obtain ⟨pre, post, hsplit, hcap, hb1, hb2⟩ :=
        ih htail (fun i hi => hnone i (List.mem_cons_of_mem _ hi))
      refine ⟨id :: pre, post, by rw [List.cons_append, hsplit], ?_, ?_, hb2⟩
      · unfold VM.captureGo
        rw [if_pos h1, hcap]
        rfl
      · intro i hi
        rcases List.mem_cons.mp hi with h | h
        · subst h; exact h1
        · exact hb1 i h
    · have h2 : VM.uvSlotOf heap id ≠ localSlot := hnone id (List.mem_cons_self _ _)
      have hlt : VM.uvSlotOf heap id < localSlot := by omega
      refine ⟨[], id :: rest, rfl, ?_, fun i hi => absurd hi (List.not_mem_nil i), ?_⟩
      · unfold VM.captureGo
        rw [if_neg h1, if_neg h2]
        rfl
      · intro i hi
        rcases List.mem_cons.mp hi with h | h
        · subst h; exact hlt
        · have := hhead i h; omega

theorem uvSlotOf_append_old (heap : List VM.HObj) (x : VM.HObj) (id : Nat)
    (h : id < heap.length) : VM.uvSlotOf (heap ++ [x]) id = VM.uvSlotOf heap id := by
  unfold VM.uvSlotOf VM.heapGet
  rw [List.get?_append h]

theorem uvSlotOf_append_new (heap : List VM.HObj) (s : Nat) :
    VM.uvSlotOf (heap ++ [VM.HObj.oUpvalue (.openAt s)]) heap.length = s := by
  unfold VM.uvSlotOf VM.heapGet
  rw [List.get?_concat_length]

theorem closeGo_suffix (l : List Nat) (vm : VM.VMState) (last : Nat)
    (h : vm.openUpvalues = l) : (VM.closeGo l vm last).openUpvalues <:+ l := by
  induction l generalizing vm with
  | nil => unfold VM.closeGo; rw [h]
  | cons id rest ih =>
    unfold VM.closeGo
    split
    · exact (ih _ rfl).trans (List.suffix_cons id rest)
    · rw [h]

/-- The VM state captureUpvalue produces. -/
def capturedVM (vm : VM.VMState) (localSlot : Nat) : VM.VMState :=
  (VM.captureUpvalue vm localSlot).1

/-- Claim C8: on a descending-sorted open-upvalue list, captureUpvalue
returns the existing upvalue object for a slot that already has one (list
and heap untouched — never a duplicate), and otherwise allocates one and
splices it at the position that keeps the list descending (everything
before it has a larger slot, everything after a smaller one, and the new
list is again sorted in the new heap); closeUpvalues only unlinks a prefix,
so the surviving list is a suffix of the old one and keeps its order. -/
theorem C8_open_upvalues_sorted :
    (∀ (vm : VM.VMState) (localSlot : Nat),
      UvSorted vm.heap vm.openUpvalues →
      (∃ id ∈ vm.openUpvalues, VM.uvSlotOf vm.heap id = localSlot) →
      capturedVM vm localSlot = vm ∧
      (VM.captureUpvalue vm localSlot).2 ∈ vm.openUpvalues ∧
      VM.uvSlotOf vm.heap (VM.captureUpvalue vm localSlot).2 = localSlot)
    ∧ (∀ (vm : VM.VMState) (localSlot : Nat),
      UvSorted vm.heap vm.openUpvalues →
      (∀ id ∈ vm.openUpvalues, VM.uvSlotOf vm.heap id ≠ localSlot) →
      (∀ id ∈ vm.openUpvalues, id < vm.heap.length) →
      ∃ pre post, vm.openUpvalues = pre ++ post ∧
        (capturedVM vm localSlot).openUpvalues = pre ++ vm.heap.length :: post ∧
        (VM.captureUpvalue vm localSlot).2 = vm.heap.length ∧
        (capturedVM vm localSlot).heap
          = vm.heap ++ [VM.HObj.oUpvalue (.openAt localSlot)] ∧
        UvSorted (capturedVM vm localSlot).heap (capturedVM vm localSlot).openUpvalues)
    ∧ (∀ (vm : VM.VMState) (last : Nat),
      (VM.closeUpvalues vm last).openUpvalues <:+ vm.openUpvalues)
    ∧ (∀ (vm : VM.VMState) (last : Nat),
      UvSorted vm.heap vm.openUpvalues →
      UvSorted vm.heap (VM.closeUpvalues vm last).openUpvalues) := by
  refine ⟨?_, ?_, ?_, ?_⟩
  · intro vm localSlot hsort hmem
    obtain ⟨hl, hc, hm, hs⟩ :=
      captureGo_reuse vm.heap localSlot vm.heap.length vm.openUpvalues hsort hmem
    unfold capturedVM VM.captureUpvalue
    rcases hrec : VM.captureGo vm.heap localSlot vm.heap.length vm.openUpvalues
      with ⟨l', r', c'⟩
    rw [hrec] at hl hc hm hs
    dsimp only at hl hc hm hs ⊢
    rw [hrec]
    dsimp only
    rw [if_neg (by rw [hc]; exact Bool.false_ne_true)]
    rw [hl]
    exact ⟨rfl, hm, hs⟩
  · intro vm localSlot hsort hnone hvalid
    obtain ⟨pre, post, hsplit, hcap, hb1, hb2⟩ :=
      captureGo_splice vm.heap localSlot vm.heap.length vm.openUpvalues hsort hnone
    refine ⟨pre, post, hsplit, ?_⟩
    have hred : capturedVM vm localSlot
        = { vm with heap := vm.heap ++ [VM.HObj.oUpvalue (.openAt localSlot)],
                    openUpvalues := pre ++ vm.heap.length :: post }
        ∧ (VM.captureUpvalue vm localSlot).2 = vm.heap.length := by
      unfold capturedVM VM.captureUpvalue
      dsimp only
      rw [hcap]
      exact ⟨rfl, rfl⟩
    rw [hred.1]
    refine ⟨rfl, hred.2, rfl, ?_⟩
    have hpre : ∀ id ∈ pre, id < vm.heap.length := by
      intro i hi; exact hvalid i (by rw [hsplit]; exact List.mem_append_left _ hi)
    have hpost : ∀ id ∈ post, id < vm.heap.length := by
      intro i hi; exact hvalid i (by rw [hsplit]; exact List.mem_append_right _ hi)
    have hsort' : (pre ++ post).Pairwise
        (fun i j => VM.uvSlotOf vm.heap i > VM.uvSlotOf vm.heap j) := by
      rw [← hsplit]; exact hsort
    rw [List.pairwise_append] at hsort'
    obtain ⟨hsp, hsq, hcross⟩ := hsort'
    unfold UvSorted
    dsimp only
    rw [List.pairwise_append]
    refine ⟨?_, ?_, ?_⟩
    · -- pre keeps its order in the extended heap
      refine hsp.imp_of_mem ?_
      intro a b ha hb hab
      rw [uvSlotOf_append_old _ _ _ (hpre a ha), uvSlotOf_append_old _ _ _ (hpre b hb)]
      exact hab
    · -- the new upvalue dominates the smaller-slot tail
      rw [List.pairwise_cons]
      constructor
      · intro b hb
        rw [uvSlotOf_append_new, uvSlotOf_append_old _ _ _ (hpost b hb)]
        exact hb2 b hb
      · refine hsq.imp_of_mem ?_
        intro a b ha hb hab
        rw [uvSlotOf_append_old _ _ _ (hpost a ha), uvSlotOf_append_old _ _ _ (hpost b hb)]
        exact hab
    · -- everything in the prefix dominates the new upvalue and the tail
      intro a ha b hb
      rcases List.mem_cons.mp hb with h | h
      · subst h
        rw [uvSlotOf_append_old _ _ _ (hpre a ha), uvSlotOf_append_new]
        exact hb1 a ha
      · rw [uvSlotOf_append_old _ _ _ (hpre a ha), uvSlotOf_append_old _ _ _ (hpost b h)]
        exact hcross a ha b h
  · intro vm last
    exact closeGo_suffix vm.openUpvalues vm last rfl
  · intro vm last hsort
    exact hsort.sublist (closeGo_suffix vm.openUpvalues vm last rfl).sublist

/-- A VM holding two open upvalues at stack slots 5 and 2 (heap ids 0 and 1,
list sorted descending). -/
def twoUpvaluesVM : VM.VMState :=
  ⟨[], [.vNil, .vNil, .vNumber 7, .vNil, .vNil, .vNumber 9], [], [], 0, [0, 1],
   [VM.HObj.oUpvalue (.openAt 5), VM.HObj.oUpvalue (.openAt 2)], []⟩

/-- Witness for C8_open_upvalues_sorted: capturing slot 2 on a concrete VM
reuses upvalue 1; capturing slot 3 splices a fresh upvalue between the two;
closing from slot 4 leaves a suffix. -/
theorem C8_open_upvalues_sorted_witness :
    (capturedVM twoUpvaluesVM 2 = twoUpvaluesVM ∧
     (VM.captureUpvalue twoUpvaluesVM 2).2 ∈ twoUpvaluesVM.openUpvalues ∧
     VM.uvSlotOf twoUpvaluesVM.heap (VM.captureUpvalue twoUpvaluesVM 2).2 = 2)
    ∧ (∃ pre post, twoUpvaluesVM.openUpvalues = pre ++ post ∧
        (capturedVM twoUpvaluesVM 3).openUpvalues
          = pre ++ twoUpvaluesVM.heap.length :: post ∧
        (VM.captureUpvalue twoUpvaluesVM 3).2 = twoUpvaluesVM.heap.length ∧
        (capturedVM twoUpvaluesVM 3).heap
          = twoUpvaluesVM.heap ++ [VM.HObj.oUpvalue (.openAt 3)] ∧
        UvSorted (capturedVM twoUpvaluesVM 3).heap (capturedVM twoUpvaluesVM 3).openUpvalues)
    ∧ (VM.closeUpvalues twoUpvaluesVM 4).openUpvalues <:+ twoUpvaluesVM.openUpvalues :=
  ⟨C8_open_upvalues_sorted.1 twoUpvaluesVM 2 (by decide) ⟨1, by decide, by decide⟩,
   C8_open_upvalues_sorted.2.1 twoUpvaluesVM 3 (by decide) (by decide) (by decide),
   C8_open_upvalues_sorted.2.2.1 twoUpvaluesVM 4⟩

/-! ## C7: the equality law under both value representations -/

namespace ValueRep

theorem objval_and_qnan (p : Nat) : (OBJ_VAL p) &&& QNAN = QNAN := by
  unfold OBJ_VAL
  apply Nat.eq_of_testBit_eq
  intro i
  rw [Nat.testBit_and, Nat.testBit_or, Nat.testBit_or]
  cases hq : QNAN.testBit i
  · simp
  · simp

theorem hi_testBit_lt48 (i : Nat) (h : i < 48) : (SIGN_BIT ||| QNAN).testBit i = false := by
  have hrw : SIGN_BIT ||| QNAN = (0xfffc : Nat) <<< 48 := by decide
  rw [hrw, Nat.testBit_shiftLeft]
  have hn : ¬ (48 ≤ i) := by omega
  simp [hn]

theorem low_testBit_ge48 (p i : Nat) (hp : p < 2 ^ 48) (h : 48 ≤ i) :
    p.testBit i = false := by
  apply Nat.testBit_lt_two_pow
  exact lt_of_lt_of_le hp (Nat.pow_le_pow_right (by norm_num) h)

theorem objval_inj (p q : Nat) (hp : p < 2 ^ 48) (hq : q < 2 ^ 48)
    (h : OBJ_VAL p = OBJ_VAL q) : p = q := by
  apply Nat.eq_of_testBit_eq
  intro i
  by_cases hi : i < 48
  · have h1 : (OBJ_VAL p).testBit i = p.testBit i := by
      unfold OBJ_VAL
      rw [Nat.testBit_or, hi_testBit_lt48 i hi]
      simp
    have h2 : (OBJ_VAL q).testBit i = q.testBit i := by
      unfold OBJ_VAL
      rw [Nat.testBit_or, hi_testBit_lt48 i hi]
      simp
    rw [← h1, ← h2, h]
  · rw [low_testBit_ge48 p i hp (by omega), low_testBit_ge48 q i hq (by omega)]

theorem objval_testBit63 (p : Nat) : (OBJ_VAL p).testBit 63 = true := by
  unfold OBJ_VAL
  rw [Nat.testBit_or]
  rw [show (SIGN_BIT ||| QNAN).testBit 63 = true from by decide]
  simp

theorem objval_ne_tag (p t : Nat) (ht : (QNAN ||| t).testBit 63 = false) :
    OBJ_VAL p ≠ QNAN ||| t := by
  intro h
  have h63 := objval_testBit63 p
  rw [h, ht] at h63
  exact Bool.noConfusion h63

theorem is_number_objval (p : Nat) : IS_NUMBER (OBJ_VAL p) = false := by
  simp [IS_NUMBER, objval_and_qnan]

theorem is_number_of_valid (x : Nat) (h : (x &&& QNAN) ≠ QNAN) : IS_NUMBER x = true := by
  simp [IS_NUMBER]
  exact h

theorem valid_num_ne_tag (x t : Nat) (h : (x &&& QNAN) ≠ QNAN)
    (ht : (QNAN ||| t) &&& QNAN = QNAN) : x ≠ QNAN ||| t := by
  intro heq
  rw [heq] at h
  exact h ht

theorem valid_num_ne_objval (x p : Nat) (h : (x &&& QNAN) ≠ QNAN) : x ≠ OBJ_VAL p := by
  intro heq
  rw [heq] at h
  exact h (objval_and_qnan p)

end ValueRep

/-- An id-addressed heap read restricted to string objects, for stating the
interning invariant. -/
def heapString (heap : List VM.HObj) (i : Nat) : Option (List Char) :=
  match heap.get? i with
  | some (.oString s) => some s
  | _ => none

/-- The string-interning invariant the VM's string table maintains: no two
distinct heap slots hold the same character content. -/
def StringsInterned (heap : List VM.HObj) : Prop :=
  ∀ i < heap.length, ∀ j < heap.length,
    (heapString heap i).isSome = true → heapString heap i = heapString heap j → i = j

instance (heap : List VM.HObj) : Decidable (StringsInterned heap) :=
  inferInstanceAs (Decidable (∀ _ < _, ∀ _ < _, _ → _ → _))

theorem heapString_lt (heap : List VM.HObj) (i : Nat) (s : List Char)
    (h : heapString heap i = some s) : i < heap.length := by
  by_cases hlen : i < heap.length
  · exact hlen
  · exfalso
    have hnone : heap.get? i = none := List.get?_eq_none.mpr (by omega)
    unfold heapString at h
    rw [hnone] at h
    exact Option.noConfusion h

theorem find?_append_none {α : Type} (p : α → Bool) (l1 l2 : List α)
    (h : l1.find? p = none) : (l1 ++ l2).find? p = l2.find? p := by
  induction l1 with
  | nil => rfl
  | cons a rest ih =>
    cases hp : p a
    · rw [List.find?_cons_of_neg _ (by simp [hp])] at h
      rw [List.cons_append, List.find?_cons_of_neg _ (by simp [hp])]
      exact ih h
    · rw [List.find?_cons_of_pos _ hp] at h
      exact Option.noConfusion h

/-- The state after allocateString interns a fresh string: the object is
appended to the heap and its id to the intern table. -/
def internedVM (vm : VM.VMState) (chars : List Char) : VM.VMState :=
  { vm with heap := vm.heap ++ [VM.HObj.oString chars],
            strings := vm.strings ++ [vm.heap.length] }

/-- Claim C7: value equality follows one law — two numbers compare as
doubles (so NaN ≠ NaN, even against itself), and any other pair is equal
exactly when it has the same type and content — and the NaN-boxed
representation computes exactly the tagged-union result on every pair of
representable values.  For strings the VM compares object ids, and under the
interning invariant id equality coincides with content equality; takeString
maintains it by returning the already-interned id for known contents. -/
theorem C7_equality_law :
    (∀ a b : ValueRep.ValueT,
      ValueRep.valuesEqualTagged a b = true ↔
        ((∃ x y, a = .VAL_NUMBER x ∧ b = .VAL_NUMBER y ∧ ValueRep.doubleEq x y = true)
         ∨ (a = b ∧ ∀ x, a ≠ .VAL_NUMBER x)))
    ∧ (∀ x : Nat, ValueRep.isNanBits x = true → (x &&& ValueRep.QNAN) ≠ ValueRep.QNAN →
      ValueRep.valuesEqualTagged (.VAL_NUMBER x) (.VAL_NUMBER x) = false ∧
      ValueRep.valuesEqualNan (ValueRep.NUMBER_VAL x) (ValueRep.NUMBER_VAL x) = false)
    ∧ (∀ a b : ValueRep.ValueT, ValueRep.ValidT a → ValueRep.ValidT b →
      ValueRep.valuesEqualNan (ValueRep.encode a) (ValueRep.encode b)
        = ValueRep.valuesEqualTagged a b)
    ∧ (∀ (vm : VM.VMState) (i j : Nat) (s t : List Char),
      StringsInterned vm.heap →
      heapString vm.heap i = some s → heapString vm.heap j = some t →
      (VM.valuesEqual (.vObj i) (.vObj j) = true ↔ s = t))
    ∧ (∀ (vm : VM.VMState) (chars : List Char),
      VM.stringChars (VM.takeString vm chars).1.heap (VM.takeString vm chars).2 = chars)
    ∧ (∀ (vm : VM.VMState) (chars : List Char),
      (∀ id ∈ vm.strings, id < vm.heap.length) →
      VM.takeString (VM.takeString vm chars).1 chars = VM.takeString vm chars) := by
  refine ⟨?_, ?_, ?_, ?_, ?_, ?_⟩
  · intro a b
    cases a <;> cases b <;>
      simp [ValueRep.valuesEqualTagged]
  · intro x hnan hvalid
    constructor
    · simp [ValueRep.valuesEqualTagged, ValueRep.doubleEq, hnan]
    · have hx := ValueRep.is_number_of_valid x hvalid
      simp [ValueRep.valuesEqualNan, ValueRep.NUMBER_VAL, ValueRep.AS_NUMBER, hx,
            ValueRep.doubleEq, hnan]
  · intro a b ha hb
    cases a with
    | VAL_NUMBER x =>
      have hx : ValueRep.IS_NUMBER x = true := ValueRep.is_number_of_valid x ha
      cases b with
      | VAL_NUMBER y =>
        have hy : ValueRep.IS_NUMBER y = true := ValueRep.is_number_of_valid y hb
        simp [ValueRep.valuesEqualNan, ValueRep.encode, ValueRep.NUMBER_VAL,
              ValueRep.AS_NUMBER, hx, hy, ValueRep.valuesEqualTagged]
      | VAL_NIL =>
        have hne : x ≠ ValueRep.NIL_VAL :=
          ValueRep.valid_num_ne_tag x ValueRep.TAG_NIL ha (by decide)
        simp [ValueRep.valuesEqualNan, ValueRep.encode, ValueRep.NUMBER_VAL,
              ValueRep.valuesEqualTagged, ValueRep.NIL_VAL, hne]
        rw [if_neg (fun hc => absurd hc.2 (by decide))]
        exact hne
      | VAL_BOOL c =>
        cases c
        · have hne : x ≠ ValueRep.FALSE_VAL :=
            ValueRep.valid_num_ne_tag x ValueRep.TAG_FALSE ha (by decide)
          simp [ValueRep.valuesEqualNan, ValueRep.encode, ValueRep.NUMBER_VAL,
                ValueRep.valuesEqualTagged, ValueRep.BOOL_VAL, ValueRep.FALSE_VAL, hne]
          rw [if_neg (fun hc => absurd hc.2 (by decide))]
          exact hne
        · have hne : x ≠ ValueRep.TRUE_VAL :=
            ValueRep.valid_num_ne_tag x ValueRep.TAG_TRUE ha (by decide)
          simp [ValueRep.valuesEqualNan, ValueRep.encode, ValueRep.NUMBER_VAL,
                ValueRep.valuesEqualTagged, ValueRep.BOOL_VAL, ValueRep.TRUE_VAL, hne]
          rw [if_neg (fun hc => absurd hc.2 (by decide))]
          exact hne
      | VAL_OBJ p =>
        have hne : x ≠ ValueRep.OBJ_VAL p := ValueRep.valid_num_ne_objval x p ha
        simp [ValueRep.valuesEqualNan, ValueRep.encode, ValueRep.NUMBER_VAL,
              ValueRep.valuesEqualTagged, hne]
        intro h1 h2
        rw [ValueRep.is_number_objval] at h2
        exact Bool.noConfusion h2
    | VAL_NIL =>
      cases b with
      | VAL_NUMBER y =>
        have hne : y ≠ ValueRep.NIL_VAL :=
          ValueRep.valid_num_ne_tag y ValueRep.TAG_NIL hb (by decide)
        simp [ValueRep.valuesEqualNan, ValueRep.encode, ValueRep.NUMBER_VAL,
              ValueRep.valuesEqualTagged, ValueRep.NIL_VAL, Ne.symm hne]
        rw [if_neg (fun hc => absurd hc.1 (by decide))]
        intro hh
        exact hne hh.symm
      | VAL_NIL => decide
      | VAL_BOOL c => cases c <;> decide
      | VAL_OBJ p =>
        have hne : ValueRep.OBJ_VAL p ≠ ValueRep.NIL_VAL :=
          ValueRep.objval_ne_tag p ValueRep.TAG_NIL (by decide)
        simp [ValueRep.valuesEqualNan, ValueRep.encode, ValueRep.valuesEqualTagged,
              ValueRep.NIL_VAL, ValueRep.is_number_objval, Ne.symm hne]
        intro hh
        exact hne hh.symm
    | VAL_BOOL c =>
      cases b with
      | VAL_NUMBER y =>
        cases c
        · have hne : y ≠ ValueRep.FALSE_VAL :=
            ValueRep.valid_num_ne_tag y ValueRep.TAG_FALSE hb (by decide)
          simp [ValueRep.valuesEqualNan, ValueRep.encode, ValueRep.NUMBER_VAL,
                ValueRep.valuesEqualTagged, ValueRep.BOOL_VAL, ValueRep.FALSE_VAL,
                Ne.symm hne]
          rw [if_neg (fun hc => absurd hc.1 (by decide))]
          intro hh
          exact hne hh.symm
        · have hne : y ≠ ValueRep.TRUE_VAL :=
            ValueRep.valid_num_ne_tag y ValueRep.TAG_TRUE hb (by decide)
          simp [ValueRep.valuesEqualNan, ValueRep.encode, ValueRep.NUMBER_VAL,
                ValueRep.valuesEqualTagged, ValueRep.BOOL_VAL, ValueRep.TRUE_VAL,
                Ne.symm hne]
          rw [if_neg (fun hc => absurd hc.1 (by decide))]
          intro hh
          exact hne hh.symm
      | VAL_NIL => cases c <;> decide
      | VAL_BOOL d => cases c <;> cases d <;> decide
      | VAL_OBJ p =>
        cases c
        · have hne : ValueRep.OBJ_VAL p ≠ ValueRep.FALSE_VAL :=
            ValueRep.objval_ne_tag p ValueRep.TAG_FALSE (by decide)
          simp [ValueRep.valuesEqualNan, ValueRep.encode, ValueRep.valuesEqualTagged,
                ValueRep.BOOL_VAL, ValueRep.FALSE_VAL, ValueRep.is_number_objval,
                Ne.symm hne]
          intro hh
          exact hne hh.symm
        · have hne : ValueRep.OBJ_VAL p ≠ ValueRep.TRUE_VAL :=
            ValueRep.objval_ne_tag p ValueRep.TAG_TRUE (by decide)
          simp [ValueRep.valuesEqualNan, ValueRep.encode, ValueRep.valuesEqualTagged,
                ValueRep.BOOL_VAL, ValueRep.TRUE_VAL, ValueRep.is_number_objval,
                Ne.symm hne]
          intro hh
          exact hne hh.symm
    | VAL_OBJ p =>
      cases b with
      | VAL_NUMBER y =>
        have hne : y ≠ ValueRep.OBJ_VAL p := ValueRep.valid_num_ne_objval y p hb
        simp [ValueRep.valuesEqualNan, ValueRep.encode, ValueRep.NUMBER_VAL,
              ValueRep.valuesEqualTagged, Ne.symm hne]
        intro h1 h2
        rw [ValueRep.is_number_objval] at h1
        exact Bool.noConfusion h1
      | VAL_NIL =>
        have hne : ValueRep.OBJ_VAL p ≠ ValueRep.NIL_VAL :=
          ValueRep.objval_ne_tag p ValueRep.TAG_NIL (by decide)
        simp [ValueRep.valuesEqualNan, ValueRep.encode, ValueRep.valuesEqualTagged,
              ValueRep.NIL_VAL, ValueRep.is_number_objval, hne]
        exact hne
      | VAL_BOOL c =>
        cases c
        · have hne : ValueRep.OBJ_VAL p ≠ ValueRep.FALSE_VAL :=
            ValueRep.objval_ne_tag p ValueRep.TAG_FALSE (by decide)
          simp [ValueRep.valuesEqualNan, ValueRep.encode, ValueRep.valuesEqualTagged,
                ValueRep.BOOL_VAL, ValueRep.FALSE_VAL, ValueRep.is_number_objval, hne]
          exact hne
        · have hne : ValueRep.OBJ_VAL p ≠ ValueRep.TRUE_VAL :=
            ValueRep.objval_ne_tag p ValueRep.TAG_TRUE (by decide)
          simp [ValueRep.valuesEqualNan, ValueRep.encode, ValueRep.valuesEqualTagged,
                ValueRep.BOOL_VAL, ValueRep.TRUE_VAL, ValueRep.is_number_objval, hne]
          exact hne
      | VAL_OBJ q =>
        by_cases hpq : p = q
        · subst hpq
          simp [ValueRep.valuesEqualNan, ValueRep.encode, ValueRep.valuesEqualTagged,
                ValueRep.is_number_objval]
        · have hne : ValueRep.OBJ_VAL p ≠ ValueRep.OBJ_VAL q :=
            fun h => hpq (ValueRep.objval_inj p q ha hb h)
          simp [ValueRep.valuesEqualNan, ValueRep.encode, ValueRep.valuesEqualTagged,
                ValueRep.is_number_objval, hne, hpq]
  · intro vm i j s t hinv hi hj
    have hbi := heapString_lt vm.heap i s hi
    have hbj := heapString_lt vm.heap j t hj
    constructor
    · intro h
      have hij : i = j := by
        have hb : (i == j) = true := h
        exact eq_of_beq hb
      rw [hij] at hi
      rw [hi] at hj
      exact Option.some_injective _ hj
    · intro hst
      have hij : i = j := by
        apply hinv i hbi j hbj
        · rw [hi]; rfl
        · rw [hi, hj, hst]
      simp [VM.valuesEqual, hij]
  · intro vm chars
    unfold VM.takeString
    cases hf : VM.tableFindString vm.heap vm.strings chars with
    | some interned =>
      dsimp only
      have := List.find?_some hf
      exact eq_of_beq this
    | none =>
      dsimp only
      unfold VM.allocateString VM.allocate
      dsimp only
      unfold VM.stringChars
      rw [List.get?_concat_length]
  · intro vm chars hvalid
    cases hf : VM.tableFindString vm.heap vm.strings chars with
    | some interned =>
      have h1 : VM.takeString vm chars = (vm, interned) := by
        unfold VM.takeString
        rw [hf]
      rw [h1]
      exact h1
    | none =>
      have h1 : VM.takeString vm chars = (internedVM vm chars, vm.heap.length) := by
        unfold VM.takeString
        rw [hf]
        rfl
      have hold : ∀ id ∈ vm.strings,
          (VM.stringChars (vm.heap ++ [VM.HObj.oString chars]) id == chars) = false := by
        intro id hid
        have hlt := hvalid id hid
        have hchars : VM.stringChars (vm.heap ++ [VM.HObj.oString chars]) id
            = VM.stringChars vm.heap id := by
          unfold VM.stringChars
          rw [List.get?_append hlt]
        rw [hchars]
        have hno := List.find?_eq_none.mp hf id hid
        simpa using hno
      have hfind : VM.tableFindString (vm.heap ++ [VM.HObj.oString chars])
          (vm.strings ++ [vm.heap.length]) chars = some vm.heap.length := by
        unfold VM.tableFindString
        rw [find?_append_none _ vm.strings _ (List.find?_eq_none.mpr ?_)]
        · rw [List.find?_cons]
          have hc : (VM.stringChars (vm.heap ++ [VM.HObj.oString chars]) vm.heap.length
              == chars) = true := by
            unfold VM.stringChars
            rw [List.get?_concat_length]
            simp
          rw [hc]
        · intro id hid
          rw [hold id hid]
          exact Bool.false_ne_true
      have h2 : VM.takeString (internedVM vm chars) chars
          = (internedVM vm chars, vm.heap.length) := by
        unfold VM.takeString
        dsimp only [internedVM]
        rw [hfind]
      rw [h1]
      exact h2

/-- Witness for C7_equality_law: the representation-agreement clause applied
at a number/object pair and at two distinct objects, and the interning
clause at a concrete two-string heap. -/
theorem C7_equality_law_witness :
    (ValueRep.valuesEqualNan (ValueRep.encode (.VAL_NUMBER 5)) (ValueRep.encode (.VAL_OBJ 3))
      = ValueRep.valuesEqualTagged (.VAL_NUMBER 5) (.VAL_OBJ 3))
    ∧ (ValueRep.valuesEqualNan (ValueRep.encode (.VAL_OBJ 3)) (ValueRep.encode (.VAL_OBJ 4))
      = ValueRep.valuesEqualTagged (.VAL_OBJ 3) (.VAL_OBJ 4))
    ∧ (VM.valuesEqual (.vObj 0) (.vObj 1) = true ↔ (['h'] : List Char) = ['i']) :=
  ⟨C7_equality_law.2.2.1 (.VAL_NUMBER 5) (.VAL_OBJ 3)
     (show (5 : Nat) &&& ValueRep.QNAN ≠ ValueRep.QNAN by decide)
     (show (3 : Nat) < 2 ^ 48 by decide),
   C7_equality_law.2.2.1 (.VAL_OBJ 3) (.VAL_OBJ 4)
     (show (3 : Nat) < 2 ^ 48 by decide) (show (4 : Nat) < 2 ^ 48 by decide),
   C7_equality_law.2.2.2.1
     ⟨[], [], [], [0, 1], 0, [], [VM.HObj.oString ['h'], VM.HObj.oString ['i']], []⟩
     0 1 ['h'] ['i'] (by decide) rfl rfl⟩

/-! ## C10: `this` and `super` have no prefix parse rule -/

theorem parsePrecedence_no_prefix (f : Nat) (st : GState) (prec : Nat)
    (h : (getRule (advance st).parser.previous.type).prefixFn = none)
    (hpanic : (advance st).parser.panicMode = false) :
    (parsePrecedence (f + 1) st prec).parser.hadError = true ∧
    "Expect expression." ∈ (parsePrecedence (f + 1) st prec).messages := by
  have hstep : parsePrecedence (f + 1) st prec = error (advance st) "Expect expression." := by
    unfold parsePrecedence
    dsimp only
    rw [h]
  rw [hstep]
  exact error_fresh_reports _ _ hpanic

/-- A parser positioned on the keyword `this` at the start of an expression. -/
def thisExprState : GState :=
  ⟨⟨⟨.TOKEN_THIS, ['t','h','i','s'], 1⟩, eofToken, false, false⟩,
   [dummyCompiler], [], []⟩

/-- Claim C10: `this` and `super` have no prefix entry in the parse-rule
table; whenever the token at an expression position has no prefix rule,
parsePrecedence reports "Expect expression."; compile(source) returns null
exactly when a diagnostic was reported; and concretely, compiling
"print this;" and "print super;" yields null with exactly that message. -/
theorem C10_this_super_rejected :
    (getRule .TOKEN_THIS).prefixFn = none
    ∧ (getRule .TOKEN_SUPER).prefixFn = none
    ∧ (∀ (f : Nat) (st : GState) (prec : Nat),
        (getRule (advance st).parser.previous.type).prefixFn = none →
        (advance st).parser.panicMode = false →
        (parsePrecedence (f + 1) st prec).parser.hadError = true ∧
        "Expect expression." ∈ (parsePrecedence (f + 1) st prec).messages)
    ∧ (∀ source fuel, ((compileFull source fuel).1 = none) ↔
        ((compileFull source fuel).2.parser.hadError = true))
    ∧ (compile "print this;".data).1.isNone = true
    ∧ (compile "print this;".data).2.messages = ["Expect expression."]
    ∧ (compile "print super;".data).1.isNone = true
    ∧ (compile "print super;".data).2.messages = ["Expect expression."] :=
  ⟨rfl, rfl, parsePrecedence_no_prefix, compileFull_none_iff,
   by decide, by decide, by decide, by decide⟩

/-- Witness for C10_this_super_rejected: the quantified clauses applied at
the keyword `this` sitting at an expression position. -/
theorem C10_this_super_rejected_witness :
    ((parsePrecedence 1 thisExprState PREC_ASSIGNMENT).parser.hadError = true ∧
     "Expect expression." ∈ (parsePrecedence 1 thisExprState PREC_ASSIGNMENT).messages)
    ∧ ((compileFull "print this;".data 152).1 = none ↔
       (compileFull "print this;".data 152).2.parser.hadError = true) :=
  ⟨C10_this_super_rejected.2.2.1 0 thisExprState PREC_ASSIGNMENT rfl rfl,
   C10_this_super_rejected.2.2.2.1 "print this;".data 152⟩

/-- Witness for C2_locals_limit: the general clauses applied at concrete
states (a full locals array and a fresh one). -/
theorem C2_locals_limit_witness :
    addLocal (applyAddLocal 255 freshFunctionState) ⟨.TOKEN_IDENTIFIER, ['w'], 1⟩ =
      error (applyAddLocal 255 freshFunctionState)
        "Too many local variables in function (CTok supports upto 256 variables in a block)."
    ∧ addLocal freshFunctionState ⟨.TOKEN_IDENTIFIER, ['w'], 1⟩ =
      freshFunctionState.setCur
        { freshFunctionState.cur with
            locals := freshFunctionState.cur.locals ++ [⟨⟨.TOKEN_IDENTIFIER, ['w'], 1⟩, -1, false⟩] } :=
  ⟨C2_locals_limit.2.1 _ _ (applyAddLocal_spec 255 (by omega)).1,
   C2_locals_limit.2.2.1 _ _ (by decide)⟩

end Ctok
